import Mathlib

/-!
# Warehouse management system: stock-movement recording

A shallow embedding of the stock-movement core of the repository
(`internal/domain/product`, `internal/domain/location`, `internal/domain/stock`,
`internal/application/commands/record_stock_movement.go`) together with the
persistence ports it talks to, of the two product commands
(`create_product.go`, `update_product.go`) and of the authorization middleware
(`internal/interfaces/http/middleware/auth.go`).

Conventions of the embedding

* Go `int64` values are `Int`; every `+`, `+=` and `-=` of the source is followed
  by `wrap64`, the two's-complement wrap-around of Go's integer arithmetic.
* A Go `error` result is `Option Error` (`none` is `nil`); a `(value, error)`
  result is `Except Error value`.
* Pointers to aggregates become values that are passed in and handed back.
* The persistent stores are one `Store` value (three tables and the id sequence
  of the movement table).  Every port operation is a function on the `Store`;
  whatever can go wrong in the infrastructure during one call is given by an
  `Env`, one optional failure per port call site.
* The constraints that the database schema of `db.go` declares are behaviour of the
  database: where a property rests on them they appear as a condition on the
  failures the database raises (`ProductCall.schemaEnforced`).
* Two calls of `Execute` that run concurrently are two `Phase` values on one `Store`,
  advanced one port call at a time in the order a list of turns gives (`Race`); a
  port call is one indivisible step, the source taking no lock between two of them.
-/

namespace Warehouse

/-! ## Machine integers -/

/-- Two's-complement wrap-around of a signed 64-bit result. -/
def wrap64 (x : Int) : Int :=
  (x + 9223372036854775808) % 18446744073709551616 - 9223372036854775808

/-- The value fits in a signed 64-bit integer. -/
def InRange64 (x : Int) : Prop :=
  -9223372036854775808 ≤ x ∧ x < 9223372036854775808

instance (x : Int) : Decidable (InRange64 x) := by
  unfold InRange64; infer_instance

/-! ## Errors -/

/-- A Go error value: either one made by `errors.New` (the package sentinels
included), identified by its text, or one raised by the persistence
infrastructure (driver, connection, constraint), identified by its cause. -/
inductive Error where
  | new (msg : String)
  | infra (cause : String)
  deriving DecidableEq, Repr

/-! ## Domain: `internal/domain/product/entity.go` -/

/-- The product aggregate. -/
structure Product where
  ID : Int
  SKUName : String
  Quantity : Int
  deriving DecidableEq, Repr

/-- `product.NewProduct`. -/
def NewProduct (skuName : String) (quantity : Int) : Except Error Product :=
  if skuName = "" then .error (.new "SKU name cannot be empty")
  else if quantity < 0 then .error (.new "quantity cannot be negative")
  else .ok { ID := 0, SKUName := skuName, Quantity := quantity }

/-- `Product.IncreaseStock`: the error and the receiver after the call. -/
def Product.IncreaseStock (p : Product) (quantity : Int) : Option Error × Product :=
  if quantity ≤ 0 then (some (.new "quantity to increase must be positive"), p)
  else (none, { p with Quantity := wrap64 (p.Quantity + quantity) })

/-- `Product.DecreaseStock`: the error and the receiver after the call. -/
def Product.DecreaseStock (p : Product) (quantity : Int) : Option Error × Product :=
  if quantity ≤ 0 then (some (.new "quantity to decrease must be positive"), p)
  else if p.Quantity < quantity then (some (.new "insufficient stock"), p)
  else (none, { p with Quantity := wrap64 (p.Quantity - quantity) })

/-- `product.ErrProductNotFound`. -/
def ErrProductNotFound : Error := .new "product not found"

/-! ## Domain: `internal/domain/location/entity.go` -/

/-- The location aggregate. -/
structure Location where
  ID : Int
  Code : String
  Name : String
  Capacity : Int
  deriving DecidableEq, Repr

/-- `location.NewLocation`. -/
def NewLocation (code name : String) (capacity : Int) : Except Error Location :=
  if code = "" then .error (.new "location code cannot be empty")
  else if name = "" then .error (.new "location name cannot be empty")
  else if capacity ≤ 0 then .error (.new "capacity must be positive")
  else .ok { ID := 0, Code := code, Name := name, Capacity := capacity }

/-- `Location.CanAccommodate`. -/
def Location.CanAccommodate (l : Location) (currentStock incomingQuantity : Int) : Bool :=
  decide (wrap64 (currentStock + incomingQuantity) ≤ l.Capacity)

/-- `location.ErrLocationNotFound`. -/
def ErrLocationNotFound : Error := .new "location not found"

/-! ## Domain: `internal/domain/stock/entity.go` -/

/-- `stock.MovementType` is a string type. -/
abbrev MovementType := String

/-- `stock.MovementTypeIN`. -/
def MovementTypeIN : MovementType := "IN"

/-- `stock.MovementTypeOUT`. -/
def MovementTypeOUT : MovementType := "OUT"

/-- The stock-movement aggregate (`Type_` is the source's field `Type`); `CreatedAt`
is a point on an abstract time line. -/
structure StockMovement where
  ID : Int
  ProductID : Int
  LocationID : Int
  Type_ : MovementType
  Quantity : Int
  CreatedAt : Nat
  deriving DecidableEq, Repr

/-- `stock.NewStockMovement`; `now` is the value of `time.Now()`. -/
def NewStockMovement (productID locationID : Int) (movementType : MovementType)
    (quantity : Int) (now : Nat) : Except Error StockMovement :=
  if productID ≤ 0 then .error (.new "invalid product ID")
  else if locationID ≤ 0 then .error (.new "invalid location ID")
  else if movementType ≠ MovementTypeIN ∧ movementType ≠ MovementTypeOUT then
    .error (.new "invalid movement type")
  else if quantity ≤ 0 then .error (.new "quantity must be positive")
  else .ok { ID := 0, ProductID := productID, LocationID := locationID,
             Type_ := movementType, Quantity := quantity, CreatedAt := now }

/-- `StockMovement.IsInbound`. -/
def StockMovement.IsInbound (sm : StockMovement) : Bool :=
  decide (sm.Type_ = MovementTypeIN)

/-- `StockMovement.IsOutbound`. -/
def StockMovement.IsOutbound (sm : StockMovement) : Bool :=
  decide (sm.Type_ = MovementTypeOUT)

/-! ## The persistent stores and the ports -/

/-- The three tables behind the ports, and the last value handed out by the id
sequence of the movement table. -/
structure Store where
  products : List Product
  locations : List Location
  movements : List StockMovement
  stockSeq : Int
  deriving DecidableEq, Repr

/-- What the infrastructure does during one request: the clock readings and, for
each port call made while recording a movement, the failure (if any) that the
persistence layer raises there. -/
structure Env where
  now : Nat
  dbNow : Nat
  productGet : Option String
  locationGet : Option String
  stockGetByLocation : Option String
  stockCreate : Option String
  productReload : Option String
  productUpdate : Option String
  deriving DecidableEq, Repr

/-- An environment in which no port call fails. -/
def Env.calm (now dbNow : Nat) : Env :=
  { now := now, dbNow := dbNow, productGet := none, locationGet := none,
    stockGetByLocation := none, stockCreate := none, productReload := none,
    productUpdate := none }

/-- `ProductRepository.GetByID`: the row with that id, `ErrProductNotFound` when
there is none, the infrastructure failure when there is one. -/
def ProductRepository.GetByID (fault : Option String) (s : Store) (id : Int) :
    Except Error Product :=
  match fault with
  | some cause => .error (.infra cause)
  | none =>
    match s.products.find? (fun p => decide (p.ID = id)) with
    | some p => .ok p
    | none => .error ErrProductNotFound

/-- `ProductRepository.Update`: rewrites the rows with the product's id;
`ErrProductNotFound` when no row was affected. -/
def ProductRepository.Update (fault : Option String) (s : Store) (p : Product) :
    Option Error × Store :=
  match fault with
  | some cause => (some (.infra cause), s)
  | none =>
    if s.products.any (fun x => decide (x.ID = p.ID)) then
      (none, { s with products := s.products.map (fun x => if x.ID = p.ID then p else x) })
    else (some ErrProductNotFound, s)

/-- `LocationRepository.GetByID`. -/
def LocationRepository.GetByID (fault : Option String) (s : Store) (id : Int) :
    Except Error Location :=
  match fault with
  | some cause => .error (.infra cause)
  | none =>
    match s.locations.find? (fun l => decide (l.ID = id)) with
    | some l => .ok l
    | none => .error ErrLocationNotFound

/-- The result of a call that takes a movement by pointer: the error, the
movement as the callee left it, and the stores afterwards. -/
structure RecordResult where
  err : Option Error
  movement : StockMovement
  store : Store
  deriving DecidableEq, Repr

/-- `StockRepository.Create`: appends the row, the store assigning its id and
timestamp, and writes the id back into the caller's movement. -/
def StockRepository.Create (fault : Option String) (dbNow : Nat) (s : Store)
    (m : StockMovement) : RecordResult :=
  match fault with
  | some cause => { err := some (.infra cause), movement := m, store := s }
  | none =>
    let id := s.stockSeq + 1
    { err := none,
      movement := { m with ID := id },
      store := { s with movements := s.movements ++ [{ m with ID := id, CreatedAt := dbNow }],
                        stockSeq := id } }

/-- `StockRepository.GetByLocation`: all rows of the location. -/
def StockRepository.GetByLocation (fault : Option String) (s : Store) (locationID : Int) :
    Except Error (List StockMovement) :=
  match fault with
  | some cause => .error (.infra cause)
  | none => .ok (s.movements.filter (fun m => decide (m.LocationID = locationID)))

/-! ## Domain service: `internal/domain/stock/service.go` -/

/-- The loop of `Service.getLocationStock` over the movements it was given. -/
def Service.locationStockLoop (movements : List StockMovement) : Int :=
  movements.foldl
    (fun total m =>
      if m.IsInbound then wrap64 (total + m.Quantity) else wrap64 (total - m.Quantity))
    0

/-- `Service.getLocationStock`. -/
def Service.getLocationStock (fault : Option String) (s : Store) (locationID : Int) :
    Except Error Int :=
  match StockRepository.GetByLocation fault s locationID with
  | .error err => .error err
  | .ok movements => .ok (Service.locationStockLoop movements)

/-- `Service.RecordMovement`. -/
def Service.RecordMovement (env : Env) (s : Store) (movement : StockMovement) :
    RecordResult :=
  match ProductRepository.GetByID env.productGet s movement.ProductID with
  | .error _ => { err := some (.new "product not found"), movement := movement, store := s }
  | .ok prod =>
    match LocationRepository.GetByID env.locationGet s movement.LocationID with
    | .error _ => { err := some (.new "location not found"), movement := movement, store := s }
    | .ok loc =>
      if movement.IsOutbound then
        if prod.Quantity < movement.Quantity then
          { err := some (.new "insufficient stock for outbound movement"),
            movement := movement, store := s }
        else StockRepository.Create env.stockCreate env.dbNow s movement
      else if movement.IsInbound then
        match Service.getLocationStock env.stockGetByLocation s movement.LocationID with
        | .error err => { err := some err, movement := movement, store := s }
        | .ok currentStock =>
          if !loc.CanAccommodate currentStock movement.Quantity then
            { err := some (.new "location capacity exceeded"),
              movement := movement, store := s }
          else StockRepository.Create env.stockCreate env.dbNow s movement
      else StockRepository.Create env.stockCreate env.dbNow s movement

/-! ## Application: the DTOs and `record_stock_movement.go` -/

/-- `dto.RecordStockMovementRequest`. -/
structure RecordStockMovementRequest where
  ProductID : Int
  LocationID : Int
  Type_ : String
  Quantity : Int
  deriving DecidableEq, Repr

/-- `dto.StockMovementResponse`. -/
structure StockMovementResponse where
  ID : Int
  ProductID : Int
  LocationID : Int
  Type_ : String
  Quantity : Int
  CreatedAt : Nat
  deriving DecidableEq, Repr

/-- What `Execute` returns, and the stores as the call left them. -/
structure ExecResult where
  resp : Option StockMovementResponse
  err : Option Error
  store : Store
  deriving DecidableEq, Repr

/-- `RecordStockMovementCommand.Execute`.  The command's `txManager` field is never
used by the source, so no unit of work appears here. -/
def RecordStockMovementCommand.Execute (env : Env) (s : Store)
    (req : RecordStockMovementRequest) : ExecResult :=
  match NewStockMovement req.ProductID req.LocationID req.Type_ req.Quantity env.now with
  | .error err => { resp := none, err := some err, store := s }
  | .ok movement =>
    let r := Service.RecordMovement env s movement
    match r.err with
    | some err => { resp := none, err := some err, store := r.store }
    | none =>
      match ProductRepository.GetByID env.productReload r.store req.ProductID with
      | .error err => { resp := none, err := some err, store := r.store }
      | .ok prod =>
        let stepped :=
          if r.movement.IsInbound then prod.IncreaseStock req.Quantity
          else prod.DecreaseStock req.Quantity
        match stepped.1 with
        | some err => { resp := none, err := some err, store := r.store }
        | none =>
          let u := ProductRepository.Update env.productUpdate r.store stepped.2
          match u.1 with
          | some err => { resp := none, err := some err, store := u.2 }
          | none =>
            { resp := some { ID := r.movement.ID, ProductID := r.movement.ProductID,
                             LocationID := r.movement.LocationID, Type_ := r.movement.Type_,
                             Quantity := r.movement.Quantity,
                             CreatedAt := r.movement.CreatedAt },
              err := none, store := u.2 }

/-! ## Notions of the specification -/

/-- The ledger rows of a location. -/
def Store.movementsAt (s : Store) (locationID : Int) : List StockMovement :=
  s.movements.filter (fun m => decide (m.LocationID = locationID))

/-- Net quantity of a list of movements as the specification words it: the sum of
the quantities of the IN movements minus the sum of the quantities of the OUT
movements, as a mathematical integer. -/
def netQuantity (ms : List StockMovement) : Int :=
  ((ms.filter (fun m => decide (m.Type_ = MovementTypeIN))).map (fun m => m.Quantity)).sum
    - ((ms.filter (fun m => decide (m.Type_ = MovementTypeOUT))).map (fun m => m.Quantity)).sum

/-- Occupancy of a location as the specification words it: the net quantity of the
ledger rows of that location. -/
def Store.occupancy (s : Store) (locationID : Int) : Int :=
  netQuantity (s.movementsAt locationID)

/-- Every movement of the list is typed IN or OUT. -/
def WellTyped (ms : List StockMovement) : Prop :=
  ∀ m ∈ ms, m.Type_ = MovementTypeIN ∨ m.Type_ = MovementTypeOUT

instance (ms : List StockMovement) : Decidable (WellTyped ms) := by
  unfold WellTyped; infer_instance

/-- The errors with which a request is refused for a business-rule reason: the four
structural errors of the constructor, and the four errors of the recorder. -/
def businessRuleErrors : List Error :=
  [.new "invalid product ID", .new "invalid location ID", .new "invalid movement type",
   .new "quantity must be positive", .new "product not found", .new "location not found",
   .new "insufficient stock for outbound movement", .new "location capacity exceeded"]

/-! ## Stores after a write -/

/-- The row that `StockRepository.Create` appends for a candidate. -/
def Store.rowFor (s : Store) (dbNow : Nat) (m : StockMovement) : StockMovement :=
  { m with ID := s.stockSeq + 1, CreatedAt := dbNow }

/-- The stores after `StockRepository.Create` has appended the row of a candidate. -/
def Store.withRow (s : Store) (dbNow : Nat) (m : StockMovement) : Store :=
  { s with movements := s.movements ++ [s.rowFor dbNow m], stockSeq := s.stockSeq + 1 }

/-- The stores after `ProductRepository.Update` has replaced the rows carrying the id
of `p` by `p`. -/
def Store.withProduct (s : Store) (p : Product) : Store :=
  { s with products := s.products.map (fun x => if x.ID = p.ID then p else x) }

/-- The candidate that `Execute` builds from a request that passes the constructor. -/
def candidateOf (req : RecordStockMovementRequest) (now : Nat) : StockMovement :=
  { ID := 0, ProductID := req.ProductID, LocationID := req.LocationID, Type_ := req.Type_,
    Quantity := req.Quantity, CreatedAt := now }

/-- The product row that `Execute` writes back for a request. -/
def steppedProduct (prod : Product) (req : RecordStockMovementRequest) : Product :=
  { prod with Quantity :=
      if req.Type_ = MovementTypeIN then wrap64 (prod.Quantity + req.Quantity)
      else wrap64 (prod.Quantity - req.Quantity) }

/-- The response `Execute` returns on success in stores `s`. -/
def responseOf (s : Store) (req : RecordStockMovementRequest) (now : Nat) :
    StockMovementResponse :=
  { ID := s.stockSeq + 1, ProductID := req.ProductID, LocationID := req.LocationID,
    Type_ := req.Type_, Quantity := req.Quantity, CreatedAt := now }

/-! ## Example data -/

/-- One product holding 100 units and one location of capacity 500, empty ledger. -/
def exStore : Store :=
  { products := [{ ID := 1, SKUName := "SKU-001", Quantity := 100 }],
    locations := [{ ID := 1, Code := "LOC-A1", Name := "Warehouse A", Capacity := 500 }],
    movements := [], stockSeq := 0 }

/-- One product holding 100 units, one location of capacity 100 with one prior IN of 80. -/
def exStoreFull : Store :=
  { products := [{ ID := 1, SKUName := "SKU-001", Quantity := 100 }],
    locations := [{ ID := 1, Code := "LOC-A1", Name := "Warehouse A", Capacity := 100 }],
    movements := [{ ID := 1, ProductID := 1, LocationID := 1, Type_ := "IN", Quantity := 80,
                    CreatedAt := 3 }],
    stockSeq := 1 }

/-- A candidate movement for product 1 at location 1. -/
def exMove (t : MovementType) (q : Int) : StockMovement :=
  { ID := 0, ProductID := 1, LocationID := 1, Type_ := t, Quantity := q, CreatedAt := 5 }

/-- A request for product 1 at location 1. -/
def exReq (t : String) (q : Int) : RecordStockMovementRequest :=
  { ProductID := 1, LocationID := 1, Type_ := t, Quantity := q }

/-- An environment in which only the product update fails. -/
def exEnvUpdateFails : Env :=
  { Env.calm 5 6 with productUpdate := some "connection reset" }

/-- An environment in which only the product reload fails. -/
def exEnvReloadFails : Env :=
  { Env.calm 5 6 with productReload := some "connection reset" }

/-! ## Sequences of calls -/

/-- The arithmetic that `Execute` performs on the product of the request does not
leave the 64-bit range. -/
def NoOverflowStep (s : Store) (req : RecordStockMovementRequest) : Prop :=
  match s.products.find? (fun x => decide (x.ID = req.ProductID)) with
  | some prod =>
    InRange64 (if req.Type_ = MovementTypeIN then prod.Quantity + req.Quantity
               else prod.Quantity - req.Quantity)
  | none => True

instance (s : Store) (req : RecordStockMovementRequest) : Decidable (NoOverflowStep s req) := by
  unfold NoOverflowStep; split <;> infer_instance

/-- One call of `Execute`: what the infrastructure does during it, and the request. -/
structure Call where
  env : Env
  req : RecordStockMovementRequest
  deriving DecidableEq, Repr

/-- The stores after a sequence of `Execute` calls, each starting from the stores the
previous one left. -/
def runCalls (s : Store) : List Call → Store
  | [] => s
  | c :: cs => runCalls (RecordStockMovementCommand.Execute c.env s c.req).store cs

/-- No call of the sequence leaves the 64-bit range in its product arithmetic. -/
def NoOverflowRun (s : Store) : List Call → Prop
  | [] => True
  | c :: cs =>
    NoOverflowStep s c.req ∧
      NoOverflowRun (RecordStockMovementCommand.Execute c.env s c.req).store cs

/-- Deciding `NoOverflowRun` call by call. -/
def NoOverflowRun.dec : (s : Store) → (cs : List Call) → Decidable (NoOverflowRun s cs)
  | _, [] => .isTrue trivial
  | s, c :: cs =>
    @instDecidableAnd _ _ inferInstance
      (NoOverflowRun.dec (RecordStockMovementCommand.Execute c.env s c.req).store cs)

instance (s : Store) (cs : List Call) : Decidable (NoOverflowRun s cs) :=
  NoOverflowRun.dec s cs

/-- Net ledger quantity of a product as the specification words it: the sum of the
quantities of the IN rows referencing the product minus the sum of the quantities of
the OUT rows referencing it. -/
def productNet (s : Store) (productID : Int) : Int :=
  netQuantity (s.movements.filter (fun m => decide (m.ProductID = productID)))

/-- Every product row holds a quantity that is not negative. -/
def AllNonneg (s : Store) : Prop :=
  ∀ p ∈ s.products, 0 ≤ p.Quantity

instance (s : Store) : Decidable (AllNonneg s) := by
  unfold AllNonneg; infer_instance

/-- The calls of the scenario: IN of 50 then OUT of 20, then an OUT of 500 that is
refused. -/
def exCalls : List Call :=
  [⟨Env.calm 5 6, exReq "IN" 50⟩, ⟨Env.calm 7 8, exReq "OUT" 20⟩,
   ⟨Env.calm 9 10, exReq "OUT" 500⟩]

/-! ## More example data -/

/-- The ledger of location 1 in one order: IN 80, OUT 30, IN 10. -/
def exLedgerA : List StockMovement :=
  [{ ID := 1, ProductID := 1, LocationID := 1, Type_ := "IN", Quantity := 80, CreatedAt := 3 },
   { ID := 2, ProductID := 1, LocationID := 1, Type_ := "OUT", Quantity := 30, CreatedAt := 3 },
   { ID := 3, ProductID := 2, LocationID := 1, Type_ := "IN", Quantity := 10, CreatedAt := 4 }]

/-- The same rows in another order: OUT 30, IN 80, IN 10. -/
def exLedgerB : List StockMovement :=
  [{ ID := 2, ProductID := 1, LocationID := 1, Type_ := "OUT", Quantity := 30, CreatedAt := 3 },
   { ID := 1, ProductID := 1, LocationID := 1, Type_ := "IN", Quantity := 80, CreatedAt := 3 },
   { ID := 3, ProductID := 2, LocationID := 1, Type_ := "IN", Quantity := 10, CreatedAt := 4 }]

/-- `LocationRepository.Update`: rewrites the rows with the location's id;
`ErrLocationNotFound` when no row was affected. -/
def LocationRepository.Update (fault : Option String) (s : Store) (l : Location) :
    Option Error × Store :=
  match fault with
  | some cause => (some (.infra cause), s)
  | none =>
    if s.locations.any (fun x => decide (x.ID = l.ID)) then
      (none, { s with locations := s.locations.map (fun x => if x.ID = l.ID then l else x) })
    else (some ErrLocationNotFound, s)

/-- The errors of the constructor `NewStockMovement`. -/
def structuralErrors : List Error :=
  [.new "invalid product ID", .new "invalid location ID", .new "invalid movement type",
   .new "quantity must be positive"]

/-- An environment in which only the first product lookup fails. -/
def exEnvProductGetFails : Env :=
  { Env.calm 5 6 with productGet := some "connection reset" }

/-- An environment in which only the location lookup fails. -/
def exEnvLocationGetFails : Env :=
  { Env.calm 5 6 with locationGet := some "connection reset" }

/-- An environment in which only the insert into the ledger fails. -/
def exEnvCreateFails : Env :=
  { Env.calm 5 6 with stockCreate := some "connection reset" }

/-- The store `exStoreFull` after the capacity of its location was lowered to 50,
below the occupancy 80. -/
def exStoreLowered : Store :=
  (LocationRepository.Update none exStoreFull
    { ID := 1, Code := "LOC-A1", Name := "Warehouse A", Capacity := 50 }).2

/-- Freshly created aggregates: one product created with quantity 1000 and one
location created with capacity 100, no movement yet. -/
def exStoreBig : Store :=
  { products := [{ ID := 1, SKUName := "SKU-001", Quantity := 1000 }],
    locations := [{ ID := 1, Code := "LOC-A1", Name := "Warehouse A", Capacity := 100 }],
    movements := [], stockSeq := 0 }

/-! ## Interface: `internal/interfaces/http/middleware/auth.go` -/

/-- Splitting a list of characters at every occurrence of a separator character: one
part more than there are separators, empty parts kept. -/
def strings.splitChars (sep : Char) : List Char → List (List Char)
  | [] => [[]]
  | c :: cs =>
    if c = sep then [] :: strings.splitChars sep cs
    else
      match strings.splitChars sep cs with
      | [] => [[c]]
      | part :: parts => (c :: part) :: parts

/-- Go's `strings.Split` for a separator of one character. -/
def strings.Split (s : String) (sep : Char) : List String :=
  (strings.splitChars sep s.toList).map String.mk

/-- `auth.Claims`, without the registered claims of the JWT library. -/
structure Claims where
  UserID : Int
  Username : String
  deriving DecidableEq, Repr

/-- What the middleware does with the request: it answers with a status and a message
and aborts the chain (`c.JSON` then `c.Abort`), or it stores the claims and hands the
request to the protected handler (`c.Set` then `c.Next`). -/
inductive AuthOutcome where
  | aborted (status : Nat) (message : String)
  | next (userID : Int) (username : String)
  deriving DecidableEq, Repr

/-- The outcome of the middleware and the tokens it passed to `VerifyToken`. -/
structure AuthResult where
  outcome : AuthOutcome
  verified : List String
  deriving DecidableEq, Repr

/-- `http.StatusUnauthorized`. -/
def StatusUnauthorized : Nat := 401

/-- `middleware.AuthMiddleware`; `authHeader` is `c.GetHeader("Authorization")`, empty
when the request has no such header, and `VerifyToken` is `JWTManager.VerifyToken`. -/
def AuthMiddleware (VerifyToken : String → Except Error Claims) (authHeader : String) :
    AuthResult :=
  if authHeader = "" then
    { outcome := .aborted StatusUnauthorized "missing authorization header", verified := [] }
  else
    let parts := strings.Split authHeader ' '
    if parts.length ≠ 2 ∨ parts.getD 0 "" ≠ "Bearer" then
      { outcome := .aborted StatusUnauthorized "invalid authorization header format",
        verified := [] }
    else
      let token := parts.getD 1 ""
      match VerifyToken token with
      | .error _ =>
        { outcome := .aborted StatusUnauthorized "invalid or expired token",
          verified := [token] }
      | .ok claims =>
        { outcome := .next claims.UserID claims.Username, verified := [token] }

/-- A verifier that accepts only the token `good`, for user 7. -/
def exVerify (token : String) : Except Error Claims :=
  if token = "good" then .ok { UserID := 7, Username := "admin" }
  else .error (.new "invalid token")

/-! ## Application: `create_product.go`, `update_product.go` and their DTOs -/

/-- `dto.CreateProductRequest`. -/
structure CreateProductRequest where
  SKUName : String
  Quantity : Int
  deriving DecidableEq, Repr

/-- `dto.UpdateProductRequest`. -/
structure UpdateProductRequest where
  SKUName : String
  Quantity : Int
  deriving DecidableEq, Repr

/-- `dto.ProductResponse`. -/
structure ProductResponse where
  ID : Int
  SKUName : String
  Quantity : Int
  deriving DecidableEq, Repr

/-- What a product command returns, and the stores as the call left them. -/
structure ProductExecResult where
  resp : Option ProductResponse
  err : Option Error
  store : Store
  deriving DecidableEq, Repr

/-- `ProductRepository.Create`: appends the row with the id the database hands out
(`newID`) and writes that id back into the caller's product; on a failure of the
database nothing is written. -/
def ProductRepository.Create (fault : Option String) (newID : Int) (s : Store)
    (p : Product) : Option Error × Product × Store :=
  match fault with
  | some cause => (some (.infra cause), p, s)
  | none =>
    (none, { p with ID := newID },
      { s with products := s.products ++ [{ p with ID := newID }] })

/-- `CreateProductCommand.Execute`. -/
def CreateProductCommand.Execute (fault : Option String) (newID : Int) (s : Store)
    (req : CreateProductRequest) : ProductExecResult :=
  match NewProduct req.SKUName req.Quantity with
  | .error err => { resp := none, err := some err, store := s }
  | .ok prod =>
    let r := ProductRepository.Create fault newID s prod
    match r.1 with
    | some err => { resp := none, err := some err, store := r.2.2 }
    | none =>
      { resp := some { ID := r.2.1.ID, SKUName := r.2.1.SKUName, Quantity := r.2.1.Quantity },
        err := none, store := r.2.2 }

/-- The product that `UpdateProductCommand.Execute` writes back: the fields of the
request overwrite those of the stored product when they are provided. -/
def updatedProduct (prod : Product) (req : UpdateProductRequest) : Product :=
  let prod1 := if req.SKUName ≠ "" then { prod with SKUName := req.SKUName } else prod
  if req.Quantity ≥ 0 then { prod1 with Quantity := req.Quantity } else prod1

/-- `UpdateProductCommand.Execute`. -/
def UpdateProductCommand.Execute (getFault updateFault : Option String) (s : Store)
    (id : Int) (req : UpdateProductRequest) : ProductExecResult :=
  match ProductRepository.GetByID getFault s id with
  | .error err => { resp := none, err := some err, store := s }
  | .ok prod =>
    let prod2 := updatedProduct prod req
    let u := ProductRepository.Update updateFault s prod2
    match u.1 with
    | some err => { resp := none, err := some err, store := u.2 }
    | none =>
      { resp := some { ID := prod2.ID, SKUName := prod2.SKUName, Quantity := prod2.Quantity },
        err := none, store := u.2 }

/-- One call of a product command, with what the database does during it. -/
inductive ProductCall where
  | create (fault : Option String) (newID : Int) (req : CreateProductRequest)
  | update (getFault updateFault : Option String) (id : Int) (req : UpdateProductRequest)
  deriving DecidableEq, Repr

/-- The stores after one call of a product command. -/
def ProductCall.run (s : Store) : ProductCall → Store
  | .create fault newID req => (CreateProductCommand.Execute fault newID s req).store
  | .update getFault updateFault id req =>
    (UpdateProductCommand.Execute getFault updateFault s id req).store

/-- The stores after a sequence of product commands. -/
def runProductCalls (s : Store) : List ProductCall → Store
  | [] => s
  | c :: cs => runProductCalls (c.run s) cs

/-- The condition on an update, given the row that `GetByID` finds: when another row
holds the SKU name that is written, the database raises a failure. -/
def updateEnforcedFor (s : Store) (updateFault : Option String) (id : Int)
    (req : UpdateProductRequest) : Option Product → Prop
  | some prod =>
    s.products.any
        (fun x => decide (x.ID ≠ id ∧ x.SKUName = (updatedProduct prod req).SKUName)) = true →
      updateFault.isSome = true
  | none => True

/-- Deciding `updateEnforcedFor`. -/
def updateEnforcedFor.dec (s : Store) (updateFault : Option String) (id : Int)
    (req : UpdateProductRequest) :
    (found : Option Product) → Decidable (updateEnforcedFor s updateFault id req found)
  | some prod =>
    inferInstanceAs (Decidable
      (s.products.any
          (fun x => decide (x.ID ≠ id ∧ x.SKUName = (updatedProduct prod req).SKUName)) = true →
        updateFault.isSome = true))
  | none => .isTrue trivial

instance (s : Store) (updateFault : Option String) (id : Int) (req : UpdateProductRequest)
    (found : Option Product) : Decidable (updateEnforcedFor s updateFault id req found) :=
  updateEnforcedFor.dec s updateFault id req found

/-- The products table as `RunMigrations` declares it (`id SERIAL PRIMARY KEY`,
`sku_name VARCHAR(255) UNIQUE NOT NULL`): the database refuses an insert whose id or
SKU name is already held by a row, and an update that gives a row the SKU name of
another row.  In the embedding that is a condition on the failure the database raises
during the call. -/
def ProductCall.schemaEnforced (s : Store) : ProductCall → Prop
  | .create fault newID req =>
    s.products.any (fun x => decide (x.ID = newID ∨ x.SKUName = req.SKUName)) = true →
      fault.isSome = true
  | .update _ updateFault id req =>
    updateEnforcedFor s updateFault id req (s.products.find? (fun x => decide (x.ID = id)))

/-- Deciding `ProductCall.schemaEnforced`. -/
def ProductCall.schemaEnforced.dec (s : Store) :
    (c : ProductCall) → Decidable (c.schemaEnforced s)
  | .create fault newID req =>
    inferInstanceAs (Decidable
      (s.products.any (fun x => decide (x.ID = newID ∨ x.SKUName = req.SKUName)) = true →
        fault.isSome = true))
  | .update _ updateFault id req =>
    inferInstanceAs (Decidable
      (updateEnforcedFor s updateFault id req
        (s.products.find? (fun x => decide (x.ID = id)))))

instance (s : Store) (c : ProductCall) : Decidable (c.schemaEnforced s) :=
  ProductCall.schemaEnforced.dec s c

/-- The database enforces the declaration of the products table during every call of
the sequence. -/
def schemaEnforcedRun (s : Store) : List ProductCall → Prop
  | [] => True
  | c :: cs => c.schemaEnforced s ∧ schemaEnforcedRun (c.run s) cs

/-- Deciding `schemaEnforcedRun` call by call. -/
def schemaEnforcedRun.dec : (s : Store) → (cs : List ProductCall) →
    Decidable (schemaEnforcedRun s cs)
  | _, [] => .isTrue trivial
  | s, c :: cs =>
    @instDecidableAnd _ _ inferInstance (schemaEnforcedRun.dec (c.run s) cs)

instance (s : Store) (cs : List ProductCall) : Decidable (schemaEnforcedRun s cs) :=
  schemaEnforcedRun.dec s cs

/-- No two product rows share an id, and no two share an SKU name. -/
def ProductsKeyed (s : Store) : Prop :=
  s.products.Pairwise (fun a b => a.ID ≠ b.ID ∧ a.SKUName ≠ b.SKUName)

instance (s : Store) : Decidable (ProductsKeyed s) := by
  unfold ProductsKeyed; infer_instance

/-- No stored aggregate at all. -/
def emptyStore : Store :=
  { products := [], locations := [], movements := [], stockSeq := 0 }

/-- Create SKU-001, try to create SKU-001 again (refused by the database), create
SKU-002, try to rename it to SKU-001 (refused by the database), rename it to SKU-003. -/
def exProductCalls : List ProductCall :=
  [.create none 1 { SKUName := "SKU-001", Quantity := 100 },
   .create (some "duplicate key value violates unique constraint") 2
     { SKUName := "SKU-001", Quantity := 5 },
   .create none 3 { SKUName := "SKU-002", Quantity := 0 },
   .update none (some "duplicate key value violates unique constraint") 3
     { SKUName := "SKU-001", Quantity := 7 },
   .update none none 3 { SKUName := "SKU-003", Quantity := 7 }]

/-! ## `Execute` one port call at a time, and two calls interleaved -/

/-- Where a call of `Execute` stands between two port calls, with the local variables
it holds there. -/
inductive Phase where
  | start
  | gotProduct (movement : StockMovement) (prod : Product)
  | gotLocation (movement : StockMovement) (prod : Product) (loc : Location)
  | admitted (movement : StockMovement)
  | inserted (movement : StockMovement)
  | stepped (movement : StockMovement) (prod : Product)
  | done (resp : Option StockMovementResponse) (err : Option Error)
  deriving DecidableEq, Repr

/-- The insert of `Service.RecordMovement` line 64, as one step. -/
def Phase.create (env : Env) (s : Store) (movement : StockMovement) : Phase × Store :=
  let r := StockRepository.Create env.stockCreate env.dbNow s movement
  match r.err with
  | some err => (.done none (some err), r.store)
  | none => (.inserted r.movement, r.store)

/-- One step of a call of `Execute`: the next port call of the source, with the local
computation that leads to the port call after it. In order: the product lookup of the
recorder (after the constructor), its location lookup, its ledger read and capacity
check (IN) or its quantity check and insert (OUT), the insert (IN), the reload with
`IncreaseStock`/`DecreaseStock`, the update. A finished call stays as it is. -/
def Phase.step (env : Env) (req : RecordStockMovementRequest) (s : Store) :
    Phase → Phase × Store
  | .start =>
    match NewStockMovement req.ProductID req.LocationID req.Type_ req.Quantity env.now with
    | .error err => (.done none (some err), s)
    | .ok movement =>
      match ProductRepository.GetByID env.productGet s movement.ProductID with
      | .error _ => (.done none (some (.new "product not found")), s)
      | .ok prod => (.gotProduct movement prod, s)
  | .gotProduct movement prod =>
    match LocationRepository.GetByID env.locationGet s movement.LocationID with
    | .error _ => (.done none (some (.new "location not found")), s)
    | .ok loc => (.gotLocation movement prod loc, s)
  | .gotLocation movement prod loc =>
    if movement.IsOutbound then
      if prod.Quantity < movement.Quantity then
        (.done none (some (.new "insufficient stock for outbound movement")), s)
      else Phase.create env s movement
    else if movement.IsInbound then
      match Service.getLocationStock env.stockGetByLocation s movement.LocationID with
      | .error err => (.done none (some err), s)
      | .ok currentStock =>
        if !loc.CanAccommodate currentStock movement.Quantity then
          (.done none (some (.new "location capacity exceeded")), s)
        else (.admitted movement, s)
    else Phase.create env s movement
  | .admitted movement => Phase.create env s movement
  | .inserted movement =>
    match ProductRepository.GetByID env.productReload s req.ProductID with
    | .error err => (.done none (some err), s)
    | .ok prod =>
      let stepped :=
        if movement.IsInbound then prod.IncreaseStock req.Quantity
        else prod.DecreaseStock req.Quantity
      match stepped.1 with
      | some err => (.done none (some err), s)
      | none => (.stepped movement stepped.2, s)
  | .stepped movement prod =>
    let u := ProductRepository.Update env.productUpdate s prod
    match u.1 with
    | some err => (.done none (some err), u.2)
    | none =>
      (.done (some { ID := movement.ID, ProductID := movement.ProductID,
                     LocationID := movement.LocationID, Type_ := movement.Type_,
                     Quantity := movement.Quantity, CreatedAt := movement.CreatedAt })
        none, u.2)
  | .done resp err => (.done resp err, s)

/-- A call run on its own for `n` steps. -/
def Phase.runAlone (env : Env) (req : RecordStockMovementRequest) :
    Nat → Phase × Store → Phase × Store
  | 0, c => c
  | n + 1, c => Phase.runAlone env req n (Phase.step env req c.2 c.1)

/-- Two calls of `Execute` in flight on the same stores. -/
structure Race where
  first : Phase
  second : Phase
  store : Store
  deriving DecidableEq, Repr

/-- Two requests with their environments. -/
structure Contest where
  env1 : Env
  req1 : RecordStockMovementRequest
  env2 : Env
  req2 : RecordStockMovementRequest
  deriving DecidableEq, Repr

/-- One step of the race: the first call makes its next port call when `turn` is
true, the second call when it is false. -/
def Race.step (k : Contest) (r : Race) (turn : Bool) : Race :=
  if turn then
    { r with first := (Phase.step k.env1 k.req1 r.store r.first).1,
             store := (Phase.step k.env1 k.req1 r.store r.first).2 }
  else
    { r with second := (Phase.step k.env2 k.req2 r.store r.second).1,
             store := (Phase.step k.env2 k.req2 r.store r.second).2 }

/-- The race after an interleaving, given as the list of turns. -/
def Race.run (k : Contest) (r : Race) (turns : List Bool) : Race :=
  turns.foldl (Race.step k) r

/-- The part of `Execute` after the recorder step (lines 45 to 72 of the source): the
reload, `IncreaseStock`/`DecreaseStock`, the update and the response, for the stores
and the movement that the recorder left. -/
def RecordStockMovementCommand.writeBack (env : Env) (req : RecordStockMovementRequest)
    (s : Store) (movement : StockMovement) : ExecResult :=
  match ProductRepository.GetByID env.productReload s req.ProductID with
  | .error err => { resp := none, err := some err, store := s }
  | .ok prod =>
    let stepped :=
      if movement.IsInbound then prod.IncreaseStock req.Quantity
      else prod.DecreaseStock req.Quantity
    match stepped.1 with
    | some err => { resp := none, err := some err, store := s }
    | none =>
      let u := ProductRepository.Update env.productUpdate s stepped.2
      match u.1 with
      | some err => { resp := none, err := some err, store := u.2 }
      | none =>
        { resp := some { ID := movement.ID, ProductID := movement.ProductID,
                         LocationID := movement.LocationID, Type_ := movement.Type_,
                         Quantity := movement.Quantity,
                         CreatedAt := movement.CreatedAt },
          err := none, store := u.2 }

/-! ## Two OUT requests of 60 against a product holding 100 -/

/-- An OUT request of 60 for a product at a location. -/
def outReq (productID locationID : Int) : RecordStockMovementRequest :=
  { ProductID := productID, LocationID := locationID, Type_ := MovementTypeOUT, Quantity := 60 }

/-- Two OUT requests of 60 for the same product, each at its location and with its own
clock readings, no port call failing. -/
def outContest (productID locationID1 locationID2 : Int) (now1 dbNow1 now2 dbNow2 : Nat) :
    Contest :=
  { env1 := Env.calm now1 dbNow1, req1 := outReq productID locationID1,
    env2 := Env.calm now2 dbNow2, req2 := outReq productID locationID2 }

/-- Both calls about to start on the stores `s`. -/
def Race.init (s : Store) : Race :=
  { first := .start, second := .start, store := s }

/-- The call has returned without error. -/
def Phase.succeeded : Phase → Bool
  | .done _ none => true
  | _ => false

/-- What a call of the contest holds in its local variables at each of its phases;
`other` says whether the other call has already succeeded. A product read as 40 was
read after the other call had written it. -/
def OutPhaseOK (productID locationID : Int) (other : Bool) : Phase → Prop
  | .start => True
  | .gotProduct m prod =>
    m.Type_ = MovementTypeOUT ∧ m.Quantity = 60 ∧ m.LocationID = locationID ∧
      (prod.Quantity = 100 ∨ (prod.Quantity = 40 ∧ other = true))
  | .gotLocation m prod _ =>
    m.Type_ = MovementTypeOUT ∧ m.Quantity = 60 ∧
      (prod.Quantity = 100 ∨ (prod.Quantity = 40 ∧ other = true))
  | .admitted _ => False
  | .inserted m => m.Type_ = MovementTypeOUT
  | .stepped _ prod => prod.ID = productID ∧ prod.Quantity = 40
  | .done _ err =>
    err = none ∨
      (other = true ∧
        (err = some (.new "insufficient stock for outbound movement") ∨
          err = some (.new "insufficient stock")))

/-- What the product table holds during the contest: the product with quantity 100 as
long as neither call has succeeded (`a`, `b`), with quantity 40 afterwards. -/
def OutStoreOK (productID : Int) (s : Store) (a b : Bool) : Prop :=
  ∃ p, s.products.find? (fun x => decide (x.ID = productID)) = some p ∧
    ((p.Quantity = 100 ∧ a = false ∧ b = false) ∨ (p.Quantity = 40 ∧ (a = true ∨ b = true)))

/-- The location table holds the location. -/
def HasLocation (s : Store) (locationID : Int) : Prop :=
  ∃ loc, s.locations.find? (fun l => decide (l.ID = locationID)) = some loc

/-- The invariant of the contest. -/
def OutRaceOK (productID locationID1 locationID2 : Int) (r : Race) : Prop :=
  OutStoreOK productID r.store r.first.succeeded r.second.succeeded ∧
    HasLocation r.store locationID1 ∧ HasLocation r.store locationID2 ∧
    OutPhaseOK productID locationID1 r.second.succeeded r.first ∧
    OutPhaseOK productID locationID2 r.first.succeeded r.second

/-- The interleaving in which both calls run their recorder step, then both reload,
then both update. -/
def exTurns : List Bool :=
  [true, true, true, false, false, false, true, false, true, false]

/-! ## Arithmetic of `wrap64` -/

theorem wrap64_of_inRange {x : Int} (h : InRange64 x) : wrap64 x = x := by
  unfold InRange64 at h
  unfold wrap64
  omega

theorem wrap64_add_left (a b : Int) : wrap64 (wrap64 a + b) = wrap64 (a + b) := by
  unfold wrap64
  omega

theorem wrap64_sub_left (a b : Int) : wrap64 (wrap64 a - b) = wrap64 (a - b) := by
  unfold wrap64
  omega

theorem inRange64_wrap64 (x : Int) : InRange64 (wrap64 x) := by
  unfold InRange64 wrap64
  omega

/-! ## The occupancy loop -/

theorem in_ne_out : MovementTypeIN ≠ MovementTypeOUT := by decide

theorem locationStockLoop_foldl (ms : List StockMovement) (hw : WellTyped ms) (acc : Int) :
    ms.foldl
      (fun total m =>
        if m.IsInbound then wrap64 (total + m.Quantity) else wrap64 (total - m.Quantity))
      (wrap64 acc)
    = wrap64 (acc + netQuantity ms) := by
  induction ms generalizing acc with
  | nil => simp [netQuantity]
  | cons m ms ih =>
    have hw2 : WellTyped ms := fun x hx => hw x (List.mem_cons_of_mem _ hx)
    have hm := hw m (List.mem_cons_self _ _)
    simp only [List.foldl_cons]
    rcases hm with hin | hout
    · have hno : m.Type_ ≠ MovementTypeOUT := by rw [hin]; exact in_ne_out
      have hi : m.IsInbound = true := by simp [StockMovement.IsInbound, hin]
      rw [hi, if_pos rfl, wrap64_add_left, ih hw2]
      congr 1
      simp [netQuantity, List.filter_cons, hin, in_ne_out]
      ring
    · have hni : m.Type_ ≠ MovementTypeIN := by rw [hout]; exact in_ne_out.symm
      have hi : m.IsInbound = false := by simp [StockMovement.IsInbound, hni]
      rw [hi, if_neg (by simp), wrap64_sub_left, ih hw2]
      congr 1
      simp [netQuantity, List.filter_cons, hout, in_ne_out.symm]
      ring

theorem locationStockLoop_eq (ms : List StockMovement) (hw : WellTyped ms) :
    Service.locationStockLoop ms = wrap64 (netQuantity ms) := by
  have h := locationStockLoop_foldl ms hw 0
  have h0 : wrap64 0 = 0 := by decide
  rw [h0] at h
  simpa [Service.locationStockLoop] using h

/-! ## What the ports and the recorder do -/

theorem productGetByID_ok {fault : Option String} {s : Store} {id : Int} {p : Product}
    (h : ProductRepository.GetByID fault s id = .ok p) :
    fault = none ∧ s.products.find? (fun x => decide (x.ID = id)) = some p := by
  unfold ProductRepository.GetByID at h
  cases fault with
  | some c => simp at h
  | none =>
    cases hf : s.products.find? (fun x => decide (x.ID = id)) with
    | none => simp [hf] at h
    | some x => simp [hf] at h; simp [h]

theorem find_product_id {ps : List Product} {id : Int} {p : Product}
    (h : ps.find? (fun x => decide (x.ID = id)) = some p) : p.ID = id ∧ p ∈ ps := by
  have h1 := List.find?_some h
  exact ⟨by simpa using h1, List.mem_of_find?_eq_some h⟩

theorem newStockMovement_ok {productID locationID : Int} {t : MovementType} {q : Int}
    {now : Nat} {m : StockMovement}
    (h : NewStockMovement productID locationID t q now = .ok m) :
    0 < productID ∧ 0 < locationID ∧ (t = MovementTypeIN ∨ t = MovementTypeOUT) ∧ 0 < q ∧
      m = { ID := 0, ProductID := productID, LocationID := locationID, Type_ := t,
            Quantity := q, CreatedAt := now } := by
  unfold NewStockMovement at h
  split at h
  · simp at h
  · split at h
    · simp at h
    · split at h
      · simp at h
      · split at h
        · simp at h
        · rename_i h1 h2 h3 h4
          refine ⟨by omega, by omega, ?_, by omega, ?_⟩
          · by_contra hc
            push_neg at hc
            exact h3 hc
          · simp at h
            exact h.symm

/-- A call of `Service.RecordMovement` that returns an error has written nothing. -/
theorem recordMovement_err (env : Env) (s : Store) (m : StockMovement) (e : Error)
    (h : (Service.RecordMovement env s m).err = some e) :
    (Service.RecordMovement env s m).store = s ∧
      (Service.RecordMovement env s m).movement = m := by
  unfold Service.RecordMovement at h ⊢
  unfold StockRepository.Create at h ⊢
  repeat' split
  all_goals simp_all

/-- A call of `Service.RecordMovement` that returns no error has appended exactly the
row of the candidate, after the checks of its branch have passed. -/
theorem recordMovement_ok (env : Env) (s : Store) (m : StockMovement)
    (h : (Service.RecordMovement env s m).err = none) :
    (Service.RecordMovement env s m).store = s.withRow env.dbNow m ∧
      (Service.RecordMovement env s m).movement = { m with ID := s.stockSeq + 1 } ∧
      env.stockCreate = none ∧
      ∃ prod loc,
        ProductRepository.GetByID env.productGet s m.ProductID = .ok prod ∧
        LocationRepository.GetByID env.locationGet s m.LocationID = .ok loc ∧
        (m.IsOutbound = true → m.Quantity ≤ prod.Quantity) ∧
        (m.IsOutbound = false → m.IsInbound = true →
          ∃ cur, Service.getLocationStock env.stockGetByLocation s m.LocationID = .ok cur ∧
            loc.CanAccommodate cur m.Quantity = true) := by
  unfold Service.RecordMovement at h ⊢
  unfold StockRepository.Create at h ⊢
  repeat' split
  all_goals simp_all [Store.withRow, Store.rowFor]

/-- The outcomes of `Execute`: refused before any write; or the row was inserted and
then either the reload or the update failed in the infrastructure (the row stays,
the product is untouched), or everything went through. -/
theorem execute_cases (env : Env) (s : Store) (req : RecordStockMovementRequest) :
    ((RecordStockMovementCommand.Execute env s req).store = s ∧
      (RecordStockMovementCommand.Execute env s req).resp = none ∧
      ∃ e, (RecordStockMovementCommand.Execute env s req).err = some e ∧
        (NewStockMovement req.ProductID req.LocationID req.Type_ req.Quantity env.now
            = .error e ∨
          (Service.RecordMovement env s (candidateOf req env.now)).err = some e)) ∨
    (NewStockMovement req.ProductID req.LocationID req.Type_ req.Quantity env.now
        = .ok (candidateOf req env.now) ∧
      (Service.RecordMovement env s (candidateOf req env.now)).err = none ∧
      ∃ prod, s.products.find? (fun x => decide (x.ID = req.ProductID)) = some prod ∧
        (req.Type_ = MovementTypeOUT → req.Quantity ≤ prod.Quantity) ∧
        ((∃ cause,
            (env.productReload = some cause ∨
              (env.productReload = none ∧ env.productUpdate = some cause)) ∧
            (RecordStockMovementCommand.Execute env s req).err = some (.infra cause) ∧
            (RecordStockMovementCommand.Execute env s req).resp = none ∧
            (RecordStockMovementCommand.Execute env s req).store
              = s.withRow env.dbNow (candidateOf req env.now)) ∨
         (env.productReload = none ∧ env.productUpdate = none ∧
            (RecordStockMovementCommand.Execute env s req).err = none ∧
            (RecordStockMovementCommand.Execute env s req).resp
              = some (responseOf s req env.now) ∧
            (RecordStockMovementCommand.Execute env s req).store
              = (s.withRow env.dbNow (candidateOf req env.now)).withProduct
                  (steppedProduct prod req)))) := by
  cases hn : NewStockMovement req.ProductID req.LocationID req.Type_ req.Quantity env.now with
  | error e =>
    left
    simp [RecordStockMovementCommand.Execute, hn]
  | ok m =>
    obtain ⟨_, _, htype, hq, hm⟩ := newStockMovement_ok hn
    have hm2 : m = candidateOf req env.now := hm
    subst hm2
    cases hr : (Service.RecordMovement env s (candidateOf req env.now)).err with
    | some e =>
      left
      have := recordMovement_err env s _ e hr
      simp [RecordStockMovementCommand.Execute, hn, hr, this.1]
    | none =>
      right
      obtain ⟨hstore, hmov, _, prod, loc, hp, _, hout, _⟩ := recordMovement_ok env s _ hr
      obtain ⟨_, hfind⟩ := productGetByID_ok hp
      obtain ⟨hid, hmem⟩ := find_product_id hfind
      have hpid : (candidateOf req env.now).ProductID = req.ProductID := rfl
      rw [hpid] at hfind hid
      refine ⟨rfl, rfl, prod, hfind, ?_, ?_⟩
      · intro ht
        exact hout (by simp [StockMovement.IsOutbound, candidateOf, ht])
      · cases hre : env.productReload with
        | some cause =>
          left
          refine ⟨cause, Or.inl rfl, ?_⟩
          simp [RecordStockMovementCommand.Execute, hn, hr, hstore, hre,
            ProductRepository.GetByID]
        | none =>
          have hreload : ProductRepository.GetByID none
              (s.withRow env.dbNow (candidateOf req env.now)) req.ProductID = .ok prod := by
            simp [ProductRepository.GetByID, Store.withRow, hfind]
          have hany : (s.withRow env.dbNow (candidateOf req env.now)).products.any
              (fun x => decide (x.ID = prod.ID)) = true := by
            simp only [Store.withRow, List.any_eq_true]
            exact ⟨prod, hmem, by simp⟩
          have hstep : (if ({ candidateOf req env.now with ID := s.stockSeq + 1 }
                : StockMovement).IsInbound
              then prod.IncreaseStock req.Quantity else prod.DecreaseStock req.Quantity)
              = (none, steppedProduct prod req) := by
            rcases htype with hin | hout2
            · have hqn : ¬ req.Quantity ≤ 0 := by omega
              simp [StockMovement.IsInbound, candidateOf, hin, Product.IncreaseStock,
                steppedProduct, hqn]
            · have hqn : ¬ req.Quantity ≤ 0 := not_le.mpr hq
              have hle : ¬ prod.Quantity < req.Quantity := not_lt.mpr
                (hout (by simp [StockMovement.IsOutbound, candidateOf, hout2]))
              have hne : req.Type_ ≠ MovementTypeIN := by
                rw [hout2]; exact in_ne_out.symm
              simp [StockMovement.IsInbound, candidateOf, hne, Product.DecreaseStock,
                steppedProduct, hqn, hle]
          cases hup : env.productUpdate with
          | some cause =>
            left
            refine ⟨cause, Or.inr ⟨rfl, rfl⟩, ?_⟩
            simp [RecordStockMovementCommand.Execute, hn, hr, hstore, hmov, hre, hreload,
              hstep, hup, ProductRepository.Update]
          | none =>
            right
            have hsid : (steppedProduct prod req).ID = prod.ID := rfl
            simp [RecordStockMovementCommand.Execute, hn, hr, hstore, hmov, hre, hreload,
              hstep, hup, ProductRepository.Update, hsid, hany]
            exact ⟨rfl, rfl⟩

/-! ## Admissibility (C1, C2) -/

/-- C1. When the product and the location are found, an OUT candidate is recorded
without error (the insert succeeding, the new row appended to the ledger) exactly
when `product.Quantity >= q`; when `product.Quantity < q` the call returns the
insufficient-stock error and leaves the stores as they were. -/
theorem recordMovement_out_iff (env : Env) (s : Store) (m : StockMovement)
    (prod : Product) (loc : Location)
    (hp : ProductRepository.GetByID env.productGet s m.ProductID = .ok prod)
    (hl : LocationRepository.GetByID env.locationGet s m.LocationID = .ok loc)
    (hout : m.Type_ = MovementTypeOUT) :
    (env.stockCreate = none →
      (((Service.RecordMovement env s m).err = none ∧
        (Service.RecordMovement env s m).store.movements
          = s.movements ++ [s.rowFor env.dbNow m])
        ↔ m.Quantity ≤ prod.Quantity)) ∧
    (prod.Quantity < m.Quantity →
      (Service.RecordMovement env s m).err
          = some (.new "insufficient stock for outbound movement") ∧
        (Service.RecordMovement env s m).store = s) := by
  have ho : m.IsOutbound = true := by simp [StockMovement.IsOutbound, hout]
  refine ⟨fun hc => ?_, fun hlt => ?_⟩
  · by_cases hlt : prod.Quantity < m.Quantity
    · have hnle : ¬ m.Quantity ≤ prod.Quantity := not_le.mpr hlt
      simp [Service.RecordMovement, hp, hl, ho, hlt, hnle]
    · have hle : m.Quantity ≤ prod.Quantity := not_lt.mp hlt
      simp [Service.RecordMovement, hp, hl, ho, hlt, hle, StockRepository.Create, hc,
        Store.rowFor]
  · simp [Service.RecordMovement, hp, hl, ho, hlt]

/-- Witness for C1: product quantity 100, OUT of 150 is refused and nothing changes. -/
theorem recordMovement_out_iff_witness :
    (Service.RecordMovement (Env.calm 5 6) exStore (exMove "OUT" 150)).err
        = some (.new "insufficient stock for outbound movement") ∧
      (Service.RecordMovement (Env.calm 5 6) exStore (exMove "OUT" 150)).store = exStore :=
  (recordMovement_out_iff (Env.calm 5 6) exStore (exMove "OUT" 150)
    { ID := 1, SKUName := "SKU-001", Quantity := 100 }
    { ID := 1, Code := "LOC-A1", Name := "Warehouse A", Capacity := 500 }
    rfl rfl rfl).2 (by decide)

/-- C2. When the product and the location are found, the ledger rows of the location
are typed IN or OUT and `occupancy + q` fits in 64 bits, an IN candidate is recorded
without error (the ledger read and the insert succeeding, the new row appended)
exactly when `occupancy + q <= location.Capacity`, the boundary included; when
`occupancy + q > capacity` the call returns the capacity-exceeded error and leaves
the stores as they were. -/
theorem recordMovement_in_iff (env : Env) (s : Store) (m : StockMovement)
    (prod : Product) (loc : Location)
    (hp : ProductRepository.GetByID env.productGet s m.ProductID = .ok prod)
    (hl : LocationRepository.GetByID env.locationGet s m.LocationID = .ok loc)
    (hin : m.Type_ = MovementTypeIN)
    (hread : env.stockGetByLocation = none)
    (hw : WellTyped (s.movementsAt m.LocationID))
    (hr : InRange64 (s.occupancy m.LocationID + m.Quantity)) :
    (env.stockCreate = none →
      (((Service.RecordMovement env s m).err = none ∧
        (Service.RecordMovement env s m).store.movements
          = s.movements ++ [s.rowFor env.dbNow m])
        ↔ s.occupancy m.LocationID + m.Quantity ≤ loc.Capacity)) ∧
    (env.stockCreate = none → s.occupancy m.LocationID + m.Quantity = loc.Capacity →
      (Service.RecordMovement env s m).err = none) ∧
    (loc.Capacity < s.occupancy m.LocationID + m.Quantity →
      (Service.RecordMovement env s m).err = some (.new "location capacity exceeded") ∧
        (Service.RecordMovement env s m).store = s) := by
  have hi : m.IsInbound = true := by simp [StockMovement.IsInbound, hin]
  have ho : m.IsOutbound = false := by
    simp [StockMovement.IsOutbound, hin, in_ne_out]
  have hstock : Service.getLocationStock env.stockGetByLocation s m.LocationID
      = .ok (wrap64 (s.occupancy m.LocationID)) := by
    simp only [Service.getLocationStock, StockRepository.GetByLocation, hread]
    have hloop := locationStockLoop_eq _ hw
    simp only [Store.movementsAt] at hloop
    rw [hloop]
    rfl
  have hcan : loc.CanAccommodate (wrap64 (s.occupancy m.LocationID)) m.Quantity
      = decide (s.occupancy m.LocationID + m.Quantity ≤ loc.Capacity) := by
    simp only [Location.CanAccommodate]
    rw [wrap64_add_left, wrap64_of_inRange hr]
  refine ⟨fun hc => ?_, fun hc heq => ?_, fun hlt => ?_⟩
  · by_cases hle : s.occupancy m.LocationID + m.Quantity ≤ loc.Capacity
    · simp [Service.RecordMovement, hp, hl, hi, ho, hstock, hcan, hle,
        StockRepository.Create, hc, Store.rowFor]
    · simp [Service.RecordMovement, hp, hl, hi, ho, hstock, hcan, hle]
  · have hle : s.occupancy m.LocationID + m.Quantity ≤ loc.Capacity := le_of_eq heq
    simp [Service.RecordMovement, hp, hl, hi, ho, hstock, hcan, hle,
      StockRepository.Create, hc]
  · have hnle : ¬ s.occupancy m.LocationID + m.Quantity ≤ loc.Capacity := not_le.mpr hlt
    simp [Service.RecordMovement, hp, hl, hi, ho, hstock, hcan, hnle]

/-- Witness for C2: capacity 100 with a prior IN of 80; an IN of 20 reaches the
boundary and is recorded. -/
theorem recordMovement_in_iff_witness :
    (Service.RecordMovement (Env.calm 5 6) exStoreFull (exMove "IN" 20)).err = none :=
  (recordMovement_in_iff (Env.calm 5 6) exStoreFull (exMove "IN" 20)
    { ID := 1, SKUName := "SKU-001", Quantity := 100 }
    { ID := 1, Code := "LOC-A1", Name := "Warehouse A", Capacity := 100 }
    rfl rfl rfl rfl (by decide) (by decide)).2.1 rfl (by decide)

/-! ## Rejections (C3), the missing unit of work (C4), absent aggregates (C8) -/

/-- C3. If `Execute` returns one of the business-rule errors, the stores after the
call (every product row, the whole ledger) are the stores before the call. -/
theorem execute_rejected_unchanged (env : Env) (s : Store)
    (req : RecordStockMovementRequest) (e : Error)
    (herr : (RecordStockMovementCommand.Execute env s req).err = some e)
    (hb : e ∈ businessRuleErrors) :
    (RecordStockMovementCommand.Execute env s req).store = s ∧
      (RecordStockMovementCommand.Execute env s req).store.products = s.products ∧
      (RecordStockMovementCommand.Execute env s req).store.movements = s.movements := by
  have key : (RecordStockMovementCommand.Execute env s req).store = s := by
    rcases execute_cases env s req with h | ⟨_, _, prod, _, _, h | h⟩
    · exact h.1
    · obtain ⟨cause, _, hinfra, _⟩ := h
      rw [hinfra] at herr
      have he : e = .infra cause := by simpa using herr.symm
      subst he
      simp [businessRuleErrors] at hb
    · rw [h.2.2.1] at herr
      simp at herr
  exact ⟨key, by rw [key], by rw [key]⟩

/-- Witness for C3: product quantity 100, an OUT request of 150 is refused with the
insufficient-stock error and the stores are untouched. -/
theorem execute_rejected_unchanged_witness :
    (RecordStockMovementCommand.Execute (Env.calm 5 6) exStore (exReq "OUT" 150)).store
      = exStore :=
  (execute_rejected_unchanged (Env.calm 5 6) exStore (exReq "OUT" 150)
    (.new "insufficient stock for outbound movement") rfl (by decide)).1

/-- C4, evaluated: with product quantity 100 and an IN request of 50 whose product
update fails, `Execute` returns the failure, the new row is in the ledger and the
product still holds 100. -/
theorem execute_update_failure_keeps_row :
    (RecordStockMovementCommand.Execute exEnvUpdateFails exStore (exReq "IN" 50)).err
        = some (.infra "connection reset") ∧
      (RecordStockMovementCommand.Execute exEnvUpdateFails exStore (exReq "IN" 50)).store.movements
        = [{ ID := 1, ProductID := 1, LocationID := 1, Type_ := "IN", Quantity := 50,
             CreatedAt := 6 }] ∧
      (RecordStockMovementCommand.Execute exEnvUpdateFails exStore (exReq "IN" 50)).store.products
        = [{ ID := 1, SKUName := "SKU-001", Quantity := 100 }] := by
  refine ⟨?_, ?_, ?_⟩ <;> rfl

/-- C8. If no product row has the candidate's product id, `Service.RecordMovement`
fails with the product-not-found error, whatever the location; if the product is
found and no location row has the candidate's location id, it fails with the
location-not-found error; in both cases the stores are left as they were. -/
theorem recordMovement_not_found (env : Env) (s : Store) (m : StockMovement) :
    ((∀ p ∈ s.products, p.ID ≠ m.ProductID) →
      (Service.RecordMovement env s m).err = some (.new "product not found") ∧
        (Service.RecordMovement env s m).store = s) ∧
    (∀ prod, ProductRepository.GetByID env.productGet s m.ProductID = .ok prod →
      (∀ l ∈ s.locations, l.ID ≠ m.LocationID) →
      (Service.RecordMovement env s m).err = some (.new "location not found") ∧
        (Service.RecordMovement env s m).store = s) := by
  constructor
  · intro habs
    have hfind : s.products.find? (fun p => decide (p.ID = m.ProductID)) = none := by
      rw [List.find?_eq_none]
      intro p hp
      simpa using habs p hp
    have hget : ∃ e, ProductRepository.GetByID env.productGet s m.ProductID = .error e := by
      unfold ProductRepository.GetByID
      cases env.productGet with
      | some c => exact ⟨_, rfl⟩
      | none => exact ⟨_, by simp only [hfind]; rfl⟩
    obtain ⟨e, he⟩ := hget
    simp [Service.RecordMovement, he]
  · intro prod hp habs
    have hfind : s.locations.find? (fun l => decide (l.ID = m.LocationID)) = none := by
      rw [List.find?_eq_none]
      intro l hl
      simpa using habs l hl
    have hget : ∃ e, LocationRepository.GetByID env.locationGet s m.LocationID = .error e := by
      unfold LocationRepository.GetByID
      cases env.locationGet with
      | some c => exact ⟨_, rfl⟩
      | none => exact ⟨_, by simp only [hfind]; rfl⟩
    obtain ⟨e, he⟩ := hget
    simp [Service.RecordMovement, hp, he]

/-- Witness for C8: a candidate for product 999, which does not exist. -/
theorem recordMovement_not_found_witness :
    (Service.RecordMovement (Env.calm 5 6) exStore
        { exMove "IN" 10 with ProductID := 999 }).err = some (.new "product not found") ∧
      (Service.RecordMovement (Env.calm 5 6) exStore
        { exMove "IN" 10 with ProductID := 999 }).store = exStore :=
  (recordMovement_not_found (Env.calm 5 6) exStore
    { exMove "IN" 10 with ProductID := 999 }).1 (by decide)

/-! ## Occupancy (C10, C7) -/

theorem netQuantity_append (a b : List StockMovement) :
    netQuantity (a ++ b) = netQuantity a + netQuantity b := by
  simp [netQuantity, List.filter_append]
  ring

theorem netQuantity_single_in (m : StockMovement) (h : m.Type_ = MovementTypeIN) :
    netQuantity [m] = m.Quantity := by
  simp [netQuantity, List.filter_cons, h, in_ne_out]

theorem netQuantity_single_out (m : StockMovement) (h : m.Type_ = MovementTypeOUT) :
    netQuantity [m] = - m.Quantity := by
  simp [netQuantity, List.filter_cons, h, in_ne_out.symm]

theorem locationGetByID_ok {fault : Option String} {s : Store} {id : Int} {l : Location}
    (h : LocationRepository.GetByID fault s id = .ok l) :
    fault = none ∧ s.locations.find? (fun x => decide (x.ID = id)) = some l := by
  unfold LocationRepository.GetByID at h
  cases fault with
  | some c => simp at h
  | none =>
    cases hf : s.locations.find? (fun x => decide (x.ID = id)) with
    | none => simp [hf] at h
    | some x => simp [hf] at h; simp [h]

theorem getLocationStock_ok {fault : Option String} {s : Store} {id : Int} {cur : Int}
    (h : Service.getLocationStock fault s id = .ok cur) :
    fault = none ∧ cur = Service.locationStockLoop (s.movementsAt id) := by
  unfold Service.getLocationStock StockRepository.GetByLocation at h
  cases fault with
  | some c => simp at h
  | none => simp at h; exact ⟨rfl, h.symm⟩

/-- C10. For the list of movements that the ledger returns for a location, each of
them typed IN or OUT, `Service.getLocationStock` returns the sum of the IN quantities
minus the sum of the OUT quantities (whatever the products), wrapped to 64 bits, hence
that very number when it fits in 64 bits; for the empty list it returns 0. -/
theorem getLocationStock_spec (fault : Option String) (s : Store) (locationID : Int)
    (ms : List StockMovement)
    (hget : StockRepository.GetByLocation fault s locationID = .ok ms) :
    (WellTyped ms →
      Service.getLocationStock fault s locationID = .ok (wrap64 (netQuantity ms)) ∧
      (InRange64 (netQuantity ms) →
        Service.getLocationStock fault s locationID = .ok (netQuantity ms))) ∧
    (ms = [] → Service.getLocationStock fault s locationID = .ok 0) := by
  constructor
  · intro hw
    have h1 : Service.getLocationStock fault s locationID = .ok (wrap64 (netQuantity ms)) := by
      simp only [Service.getLocationStock, hget]
      rw [locationStockLoop_eq ms hw]
    exact ⟨h1, fun hr => by rw [h1, wrap64_of_inRange hr]⟩
  · intro hnil
    subst hnil
    simp only [Service.getLocationStock, hget]
    rfl

/-- Witness for C10: the ledger of a location holding one IN of 80. -/
theorem getLocationStock_spec_witness :
    Service.getLocationStock none exStoreFull 1 = .ok 80 :=
  ((getLocationStock_spec none exStoreFull 1 exStoreFull.movements rfl).1
    (by decide)).2 (by decide)

/-- C7. After `Service.RecordMovement` has accepted an IN movement (the rows of the
location typed IN or OUT, `occupancy + q` fitting in 64 bits), the occupancy of the
location computed over the ledger with the new row is the old occupancy plus `q`
and is at most the capacity of the location. -/
theorem recordMovement_in_within_capacity (env : Env) (s : Store) (m : StockMovement)
    (hin : m.Type_ = MovementTypeIN)
    (hacc : (Service.RecordMovement env s m).err = none)
    (hw : WellTyped (s.movementsAt m.LocationID))
    (hr : InRange64 (s.occupancy m.LocationID + m.Quantity)) :
    ∃ loc, s.locations.find? (fun l => decide (l.ID = m.LocationID)) = some loc ∧
      (Service.RecordMovement env s m).store.locations = s.locations ∧
      (Service.RecordMovement env s m).store.occupancy m.LocationID
        = s.occupancy m.LocationID + m.Quantity ∧
      (Service.RecordMovement env s m).store.occupancy m.LocationID ≤ loc.Capacity := by
  obtain ⟨hstore, _, _, prod, loc, _, hl, _, hcheck⟩ := recordMovement_ok env s m hacc
  have hi : m.IsInbound = true := by simp [StockMovement.IsInbound, hin]
  have ho : m.IsOutbound = false := by simp [StockMovement.IsOutbound, hin, in_ne_out]
  obtain ⟨cur, hcur, hcan⟩ := hcheck ho hi
  obtain ⟨_, hcur2⟩ := getLocationStock_ok hcur
  have hocc : (s.withRow env.dbNow m).occupancy m.LocationID
      = s.occupancy m.LocationID + m.Quantity := by
    have hrow : netQuantity [s.rowFor env.dbNow m] = m.Quantity :=
      netQuantity_single_in _ hin
    simp only [Store.occupancy, Store.movementsAt, Store.withRow, List.filter_append]
    rw [netQuantity_append]
    have hfil : List.filter (fun x => decide (x.LocationID = m.LocationID))
        [s.rowFor env.dbNow m] = [s.rowFor env.dbNow m] := by
      simp [Store.rowFor]
    rw [hfil, hrow]
  have hle : s.occupancy m.LocationID + m.Quantity ≤ loc.Capacity := by
    rw [hcur2, locationStockLoop_eq _ hw] at hcan
    simp only [Location.CanAccommodate, decide_eq_true_eq] at hcan
    rw [wrap64_add_left] at hcan
    have hr2 : InRange64 (netQuantity (s.movementsAt m.LocationID) + m.Quantity) := hr
    rw [wrap64_of_inRange hr2] at hcan
    exact hcan
  refine ⟨loc, (locationGetByID_ok hl).2, ?_, ?_, ?_⟩
  · rw [hstore]; rfl
  · rw [hstore, hocc]
  · rw [hstore, hocc]; exact hle

/-- Witness for C7: capacity 100 with a prior IN of 80, an accepted IN of 20. -/
theorem recordMovement_in_within_capacity_witness :
    ∃ loc, exStoreFull.locations.find? (fun l => decide (l.ID = 1)) = some loc ∧
      (Service.RecordMovement (Env.calm 5 6) exStoreFull (exMove "IN" 20)).store.locations
        = exStoreFull.locations ∧
      (Service.RecordMovement (Env.calm 5 6) exStoreFull (exMove "IN" 20)).store.occupancy 1
        = exStoreFull.occupancy 1 + 20 ∧
      (Service.RecordMovement (Env.calm 5 6) exStoreFull (exMove "IN" 20)).store.occupancy 1
        ≤ loc.Capacity :=
  recordMovement_in_within_capacity (Env.calm 5 6) exStoreFull (exMove "IN" 20) rfl rfl
    (by decide) (by decide)

/-! ## An accepted request (C9) -/

theorem find_map_update (ps : List Product) (p' : Product) (id : Int) :
    (ps.map (fun x => if x.ID = p'.ID then p' else x)).find? (fun x => decide (x.ID = id))
      = (ps.find? (fun x => decide (x.ID = id))).map
          (fun x => if x.ID = p'.ID then p' else x) := by
  induction ps with
  | nil => rfl
  | cons a as ih =>
    have hid : (if a.ID = p'.ID then p' else a).ID = a.ID := by
      split
      · rename_i h; exact h.symm
      · rfl
    simp only [List.map_cons, List.find?_cons, hid]
    by_cases h : a.ID = id
    · simp [h]
    · simp [h, ih]

theorem steppedProduct_quantity (s : Store) (req : RecordStockMovementRequest)
    (prod : Product)
    (hfind : s.products.find? (fun x => decide (x.ID = req.ProductID)) = some prod)
    (hno : NoOverflowStep s req) :
    (steppedProduct prod req).Quantity
      = if req.Type_ = MovementTypeIN then prod.Quantity + req.Quantity
        else prod.Quantity - req.Quantity := by
  simp only [NoOverflowStep, hfind] at hno
  simp only [steppedProduct]
  split
  · rename_i h; rw [if_pos h] at hno; exact wrap64_of_inRange hno
  · rename_i h; rw [if_neg h] at hno; exact wrap64_of_inRange hno

/-- C9. When `Execute` accepts a request (its arithmetic staying in the 64-bit
range), the ledger afterwards is the ledger before plus one row carrying the
store-assigned id and the request's product id, location id, type and quantity; the
stored quantity of the product has gone up by exactly the request quantity for IN and
down by exactly the request quantity for OUT; and the response carries that id and
the request's four fields. -/
theorem execute_accepted (env : Env) (s : Store) (req : RecordStockMovementRequest)
    (hacc : (RecordStockMovementCommand.Execute env s req).err = none)
    (hno : NoOverflowStep s req) :
    ∃ prod, s.products.find? (fun x => decide (x.ID = req.ProductID)) = some prod ∧
      (RecordStockMovementCommand.Execute env s req).store.movements
        = s.movements ++ [{ ID := s.stockSeq + 1, ProductID := req.ProductID,
                            LocationID := req.LocationID, Type_ := req.Type_,
                            Quantity := req.Quantity, CreatedAt := env.dbNow }] ∧
      (RecordStockMovementCommand.Execute env s req).store.movements.length
        = s.movements.length + 1 ∧
      (req.Type_ = MovementTypeIN ∨ req.Type_ = MovementTypeOUT) ∧
      (req.Type_ = MovementTypeIN →
        (RecordStockMovementCommand.Execute env s req).store.products.find?
            (fun x => decide (x.ID = req.ProductID))
          = some { prod with Quantity := prod.Quantity + req.Quantity }) ∧
      (req.Type_ = MovementTypeOUT →
        (RecordStockMovementCommand.Execute env s req).store.products.find?
            (fun x => decide (x.ID = req.ProductID))
          = some { prod with Quantity := prod.Quantity - req.Quantity }) ∧
      (RecordStockMovementCommand.Execute env s req).resp
        = some { ID := s.stockSeq + 1, ProductID := req.ProductID,
                 LocationID := req.LocationID, Type_ := req.Type_,
                 Quantity := req.Quantity, CreatedAt := env.now } := by
  rcases execute_cases env s req with h | ⟨hn, _, prod, hfind, _, h | h⟩
  · obtain ⟨_, _, e, he, _⟩ := h
    rw [he] at hacc; simp at hacc
  · obtain ⟨cause, _, he, _⟩ := h
    rw [he] at hacc; simp at hacc
  · obtain ⟨_, _, _, hresp, hstore⟩ := h
    obtain ⟨_, _, htype, _, _⟩ := newStockMovement_ok hn
    obtain ⟨hid, _⟩ := find_product_id hfind
    have hq := steppedProduct_quantity s req prod hfind hno
    have hnew : (RecordStockMovementCommand.Execute env s req).store.products.find?
        (fun x => decide (x.ID = req.ProductID)) = some (steppedProduct prod req) := by
      rw [hstore]
      simp only [Store.withProduct, Store.withRow]
      rw [find_map_update, hfind]
      simp [steppedProduct]
    have hmov : (RecordStockMovementCommand.Execute env s req).store.movements
        = s.movements ++ [{ ID := s.stockSeq + 1, ProductID := req.ProductID,
                            LocationID := req.LocationID, Type_ := req.Type_,
                            Quantity := req.Quantity, CreatedAt := env.dbNow }] := by
      rw [hstore]; rfl
    refine ⟨prod, hfind, hmov, ?_, htype, ?_, ?_, ?_⟩
    · rw [hmov]; simp
    · intro hin
      rw [hnew]
      rw [if_pos hin] at hq
      have : steppedProduct prod req = { prod with Quantity := prod.Quantity + req.Quantity } := by
        cases prod
        simp only [steppedProduct, Product.mk.injEq, true_and] at hq ⊢
        exact hq
      rw [this]
    · intro hout
      have hne : req.Type_ ≠ MovementTypeIN := by rw [hout]; exact in_ne_out.symm
      rw [hnew]
      rw [if_neg hne] at hq
      have : steppedProduct prod req = { prod with Quantity := prod.Quantity - req.Quantity } := by
        cases prod
        simp only [steppedProduct, Product.mk.injEq, true_and] at hq ⊢
        exact hq
      rw [this]
    · rw [hresp]; rfl

/-- Witness for C9: product quantity 100, an IN request of 50. -/
theorem execute_accepted_witness :
    ∃ prod, exStore.products.find? (fun x => decide (x.ID = 1)) = some prod ∧
      (RecordStockMovementCommand.Execute (Env.calm 5 6) exStore (exReq "IN" 50)).store.movements
        = exStore.movements ++
          [{ ID := exStore.stockSeq + 1, ProductID := 1, LocationID := 1, Type_ := "IN",
             Quantity := 50, CreatedAt := 6 }] ∧
      (RecordStockMovementCommand.Execute (Env.calm 5 6) exStore
          (exReq "IN" 50)).store.movements.length
        = exStore.movements.length + 1 ∧
      ("IN" = MovementTypeIN ∨ "IN" = MovementTypeOUT) ∧
      ("IN" = MovementTypeIN →
        (RecordStockMovementCommand.Execute (Env.calm 5 6) exStore
            (exReq "IN" 50)).store.products.find? (fun x => decide (x.ID = 1))
          = some { prod with Quantity := prod.Quantity + 50 }) ∧
      ("IN" = MovementTypeOUT →
        (RecordStockMovementCommand.Execute (Env.calm 5 6) exStore
            (exReq "IN" 50)).store.products.find? (fun x => decide (x.ID = 1))
          = some { prod with Quantity := prod.Quantity - 50 }) ∧
      (RecordStockMovementCommand.Execute (Env.calm 5 6) exStore (exReq "IN" 50)).resp
        = some { ID := exStore.stockSeq + 1, ProductID := 1,
                 LocationID := 1, Type_ := "IN",
                 Quantity := 50, CreatedAt := 5 } :=
  execute_accepted (Env.calm 5 6) exStore (exReq "IN" 50) rfl (by decide)

/-! ## Non-negative quantities (C6) -/

theorem noOverflowRun_take (s : Store) (cs : List Call) (h : NoOverflowRun s cs) (n : Nat) :
    NoOverflowRun s (cs.take n) := by
  induction cs generalizing s n with
  | nil => simpa using h
  | cons c cs ih =>
    cases n with
    | zero => simp [NoOverflowRun]
    | succ n => exact ⟨h.1, ih _ h.2 n⟩

/-- One call of `Execute` keeps every stored quantity non-negative. -/
theorem execute_keeps_nonneg (env : Env) (s : Store) (req : RecordStockMovementRequest)
    (h0 : AllNonneg s) (hno : NoOverflowStep s req) :
    AllNonneg (RecordStockMovementCommand.Execute env s req).store := by
  rcases execute_cases env s req with h | ⟨hn, _, prod, hfind, hout, h | h⟩
  · rw [h.1]; exact h0
  · obtain ⟨_, _, _, _, hstore⟩ := h
    rw [hstore]; exact h0
  · obtain ⟨_, _, _, _, hstore⟩ := h
    obtain ⟨_, _, htype, hq, _⟩ := newStockMovement_ok hn
    obtain ⟨_, hmem⟩ := find_product_id hfind
    have hqty := steppedProduct_quantity s req prod hfind hno
    have hprod := h0 prod hmem
    have hstep : 0 ≤ (steppedProduct prod req).Quantity := by
      rw [hqty]
      rcases htype with hin | hout2
      · rw [if_pos hin]; omega
      · have hne : req.Type_ ≠ MovementTypeIN := by rw [hout2]; exact in_ne_out.symm
        have := hout hout2
        rw [if_neg hne]; omega
    rw [hstore]
    intro p hp
    simp only [Store.withProduct, Store.withRow, List.mem_map] at hp
    obtain ⟨x, hx, hxp⟩ := hp
    split at hxp
    · rw [← hxp]; exact hstep
    · rw [← hxp]; exact h0 x hx

/-- C6. From stores in which every product quantity is `>= 0`, after each call of
any sequence of `Execute` calls (accepted, refused or failing in the infrastructure,
the arithmetic staying in the 64-bit range) every product quantity is still `>= 0`. -/
theorem runCalls_nonneg (s : Store) (cs : List Call)
    (h0 : AllNonneg s) (hno : NoOverflowRun s cs) :
    ∀ n, AllNonneg (runCalls s (cs.take n)) := by
  have key : ∀ (cs : List Call) (s : Store), AllNonneg s → NoOverflowRun s cs →
      AllNonneg (runCalls s cs) := by
    intro cs
    induction cs with
    | nil => intro s h _; exact h
    | cons c cs ih =>
      intro s h hn
      exact ih _ (execute_keeps_nonneg c.env s c.req h hn.1) hn.2
  intro n
  exact key _ s h0 (noOverflowRun_take s cs hno n)

/-- Witness for C6: product quantity 100, IN 50, OUT 20 and a refused OUT 500. -/
theorem runCalls_nonneg_witness : AllNonneg (runCalls exStore (exCalls.take 3)) :=
  runCalls_nonneg exStore exCalls (by decide) (by decide) 3

/-! ## The net-effect law (C5) -/

/-- One call of `Execute` whose reload and update do not fail keeps the difference
between the stored quantity of a product and its net ledger quantity. -/
theorem execute_keeps_net (env : Env) (s : Store) (req : RecordStockMovementRequest)
    (productID q0 : Int)
    (hre : env.productReload = none) (hup : env.productUpdate = none)
    (hno : NoOverflowStep s req)
    (hinv : ∃ p, s.products.find? (fun x => decide (x.ID = productID)) = some p ∧
      p.Quantity = q0 + productNet s productID) :
    ∃ p, (RecordStockMovementCommand.Execute env s req).store.products.find?
        (fun x => decide (x.ID = productID)) = some p ∧
      p.Quantity
        = q0 + productNet (RecordStockMovementCommand.Execute env s req).store productID := by
  obtain ⟨p, hp, hpq⟩ := hinv
  rcases execute_cases env s req with h | ⟨hn, _, prod, hfind, _, h | h⟩
  · rw [h.1]; exact ⟨p, hp, hpq⟩
  · obtain ⟨cause, hc, _⟩ := h
    rcases hc with hc | ⟨_, hc⟩
    · rw [hre] at hc; simp at hc
    · rw [hup] at hc; simp at hc
  · obtain ⟨_, _, _, _, hstore⟩ := h
    obtain ⟨_, _, htype, _, _⟩ := newStockMovement_ok hn
    obtain ⟨hid, _⟩ := find_product_id hfind
    obtain ⟨hpid, _⟩ := find_product_id hp
    have hqty := steppedProduct_quantity s req prod hfind hno
    have hsid : (steppedProduct prod req).ID = req.ProductID := hid
    have hnet : productNet ((s.withRow env.dbNow (candidateOf req env.now)).withProduct
          (steppedProduct prod req)) productID
        = productNet s productID
          + netQuantity (List.filter (fun m => decide (m.ProductID = productID))
              [s.rowFor env.dbNow (candidateOf req env.now)]) := by
      simp only [productNet, Store.withProduct, Store.withRow, List.filter_append]
      rw [netQuantity_append]
    have hfindNew : ((s.withRow env.dbNow (candidateOf req env.now)).withProduct
          (steppedProduct prod req)).products.find? (fun x => decide (x.ID = productID))
        = some (if p.ID = (steppedProduct prod req).ID then steppedProduct prod req else p) := by
      simp only [Store.withProduct, Store.withRow]
      rw [find_map_update, hp]
      rfl
    rw [hstore, hfindNew, hnet]
    by_cases hsame : productID = req.ProductID
    · subst hsame
      have hpp : p = prod := by
        rw [hp] at hfind
        exact Option.some.inj hfind
      subst hpp
      have hrowin : List.filter (fun m => decide (m.ProductID = req.ProductID))
          [s.rowFor env.dbNow (candidateOf req env.now)]
          = [s.rowFor env.dbNow (candidateOf req env.now)] := by
        simp [Store.rowFor, candidateOf]
      refine ⟨steppedProduct p req, by rw [if_pos (hpid.trans hsid.symm)], ?_⟩
      rw [hrowin, hqty]
      rcases htype with hin | hout
      · rw [if_pos hin, netQuantity_single_in _ (by exact hin)]
        simp only [Store.rowFor, candidateOf]
        omega
      · have hne : req.Type_ ≠ MovementTypeIN := by rw [hout]; exact in_ne_out.symm
        rw [if_neg hne, netQuantity_single_out _ (by exact hout)]
        simp only [Store.rowFor, candidateOf]
        omega
    · have hrowout : List.filter (fun m => decide (m.ProductID = productID))
          [s.rowFor env.dbNow (candidateOf req env.now)] = [] := by
        have : ¬ req.ProductID = productID := fun h => hsame h.symm
        simp [Store.rowFor, candidateOf, this]
      have hne : ¬ p.ID = (steppedProduct prod req).ID := by
        rw [hpid, hsid]; exact hsame
      refine ⟨p, by rw [if_neg hne], ?_⟩
      rw [hrowout, hpq]
      simp [netQuantity]

/-- C5, evaluated: the product is created with quantity 100 and an empty ledger, one
IN request of 50 is executed, every store write that is attempted succeeds (the insert
does, the update is never reached) but the product reload fails after the insert.
`Execute` has no unit of work to roll the insert back, so the ledger holds the IN of
50 while the stored quantity is still 100, not 150. -/
theorem net_effect_broken_by_failed_reload :
    exEnvReloadFails.stockCreate = none ∧ exEnvReloadFails.productUpdate = none ∧
      NoOverflowRun exStore [⟨exEnvReloadFails, exReq "IN" 50⟩] ∧
      (runCalls exStore [⟨exEnvReloadFails, exReq "IN" 50⟩]).products.find?
          (fun x => decide (x.ID = 1))
        = some { ID := 1, SKUName := "SKU-001", Quantity := 100 } ∧
      productNet (runCalls exStore [⟨exEnvReloadFails, exReq "IN" 50⟩]) 1 = 50 ∧
      (100 : Int) ≠ 100 + productNet (runCalls exStore [⟨exEnvReloadFails, exReq "IN" 50⟩]) 1 := by
  refine ⟨rfl, rfl, by decide, rfl, by decide, by decide⟩

/-- The net-effect law where the missing unit of work does not show: for a product
stored with quantity `q0` that no ledger row references yet, after any sequence of
`Execute` calls in which no product reload and no product update fails (the arithmetic
staying in the 64-bit range), the stored quantity of the product is `q0` plus the sum
of the quantities of the ledger's IN rows referencing it minus the sum of the
quantities of the ledger's OUT rows referencing it. -/
theorem runCalls_net_effect (s : Store) (productID : Int) (p0 : Product) (cs : List Call)
    (hcreated : s.products.find? (fun x => decide (x.ID = productID)) = some p0)
    (hfresh : ∀ m ∈ s.movements, m.ProductID ≠ productID)
    (hsteps : ∀ c ∈ cs, c.env.productReload = none ∧ c.env.productUpdate = none)
    (hno : NoOverflowRun s cs) :
    ∃ p, (runCalls s cs).products.find? (fun x => decide (x.ID = productID)) = some p ∧
      p.Quantity = p0.Quantity + productNet (runCalls s cs) productID := by
  have key : ∀ (cs : List Call) (s : Store),
      (∀ c ∈ cs, c.env.productReload = none ∧ c.env.productUpdate = none) →
      NoOverflowRun s cs →
      (∃ p, s.products.find? (fun x => decide (x.ID = productID)) = some p ∧
        p.Quantity = p0.Quantity + productNet s productID) →
      ∃ p, (runCalls s cs).products.find? (fun x => decide (x.ID = productID)) = some p ∧
        p.Quantity = p0.Quantity + productNet (runCalls s cs) productID := by
    intro cs
    induction cs with
    | nil => intro s _ _ h; exact h
    | cons c cs ih =>
      intro s hs hn hinv
      have hc := hs c (List.mem_cons_self _ _)
      exact ih _ (fun d hd => hs d (List.mem_cons_of_mem _ hd)) hn.2
        (execute_keeps_net c.env s c.req productID p0.Quantity hc.1 hc.2 hn.1 hinv)
  refine key cs s hsteps hno ⟨p0, hcreated, ?_⟩
  have hnone : s.movements.filter (fun m => decide (m.ProductID = productID)) = [] := by
    rw [List.filter_eq_nil_iff]
    intro m hm
    simpa using hfresh m hm
  simp [productNet, hnone, netQuantity]

/-- An instance of `runCalls_net_effect`: quantity 100, IN of 50 then OUT of 20 gives
130. -/
theorem runCalls_net_effect_witness :
    ∃ p, (runCalls exStore [⟨Env.calm 5 6, exReq "IN" 50⟩, ⟨Env.calm 7 8, exReq "OUT" 20⟩]
          ).products.find? (fun x => decide (x.ID = 1)) = some p ∧
      p.Quantity = 100 + productNet
        (runCalls exStore [⟨Env.calm 5 6, exReq "IN" 50⟩, ⟨Env.calm 7 8, exReq "OUT" 20⟩]) 1 :=
  runCalls_net_effect exStore 1 { ID := 1, SKUName := "SKU-001", Quantity := 100 }
    [⟨Env.calm 5 6, exReq "IN" 50⟩, ⟨Env.calm 7 8, exReq "OUT" 20⟩]
    rfl (by decide) (by decide) (by decide)

/-- Scenario 3 of the specification, evaluated: quantity 100, capacity 500, IN of 50
then OUT of 20; the stored quantity is 130 and the occupancy of the location 30. -/
theorem scenario_in_then_out :
    (runCalls exStore [⟨Env.calm 5 6, exReq "IN" 50⟩, ⟨Env.calm 7 8, exReq "OUT" 20⟩]
        ).products.find? (fun x => decide (x.ID = 1))
      = some { ID := 1, SKUName := "SKU-001", Quantity := 130 } ∧
    (runCalls exStore [⟨Env.calm 5 6, exReq "IN" 50⟩, ⟨Env.calm 7 8, exReq "OUT" 20⟩]
        ).occupancy 1 = 30 := by
  constructor
  · rfl
  · decide

/-! ## Order of the ledger rows (C11) -/

/-- The body of the occupancy loop commutes: two rows can be taken in either order. -/
theorem locationStock_step_comm (x y : StockMovement) (z : Int) :
    (fun (total : Int) (m : StockMovement) =>
        if m.IsInbound then wrap64 (total + m.Quantity) else wrap64 (total - m.Quantity))
      ((fun (total : Int) (m : StockMovement) =>
        if m.IsInbound then wrap64 (total + m.Quantity) else wrap64 (total - m.Quantity)) z x) y
    = (fun (total : Int) (m : StockMovement) =>
        if m.IsInbound then wrap64 (total + m.Quantity) else wrap64 (total - m.Quantity))
      ((fun (total : Int) (m : StockMovement) =>
        if m.IsInbound then wrap64 (total + m.Quantity) else wrap64 (total - m.Quantity)) z y) x := by
  simp only
  cases x.IsInbound <;> cases y.IsInbound <;> simp only [if_true, Bool.false_eq_true, if_false]
  · rw [wrap64_sub_left, wrap64_sub_left]; congr 1; ring
  · rw [wrap64_add_left, wrap64_sub_left]; congr 1; ring
  · rw [wrap64_sub_left, wrap64_add_left]; congr 1; ring
  · rw [wrap64_add_left, wrap64_add_left]; congr 1; ring

theorem locationStockLoop_perm {l₁ l₂ : List StockMovement} (hp : l₁.Perm l₂) :
    Service.locationStockLoop l₁ = Service.locationStockLoop l₂ := by
  unfold Service.locationStockLoop
  exact hp.foldl_eq' (fun x _ y _ z => locationStock_step_comm x y z) 0

/-- C11. For two lists of movements that are permutations of each other the occupancy
loop of `Service.getLocationStock` computes the same number, so the capacity check
gives the same answer; and two stores that differ only in the order of their ledger
rows give the same occupancy and the same outcome of `Service.RecordMovement`. -/
theorem getLocationStock_perm (l₁ l₂ : List StockMovement) (hp : l₁.Perm l₂) :
    Service.locationStockLoop l₁ = Service.locationStockLoop l₂ ∧
    (∀ (loc : Location) (q : Int),
      loc.CanAccommodate (Service.locationStockLoop l₁) q
        = loc.CanAccommodate (Service.locationStockLoop l₂) q) ∧
    (∀ (fault : Option String) (s : Store) (locationID : Int), s.movements = l₁ →
      Service.getLocationStock fault s locationID
        = Service.getLocationStock fault { s with movements := l₂ } locationID) ∧
    (∀ (env : Env) (s : Store) (m : StockMovement), s.movements = l₁ →
      (Service.RecordMovement env s m).err
        = (Service.RecordMovement env { s with movements := l₂ } m).err) := by
  have hloop := locationStockLoop_perm hp
  have hget : ∀ (fault : Option String) (s : Store) (locationID : Int), s.movements = l₁ →
      Service.getLocationStock fault s locationID
        = Service.getLocationStock fault { s with movements := l₂ } locationID := by
    intro fault s locationID hs
    cases fault with
    | some c => rfl
    | none =>
      simp only [Service.getLocationStock, StockRepository.GetByLocation, hs]
      rw [locationStockLoop_perm (hp.filter _)]
  refine ⟨hloop, fun loc q => by rw [hloop], hget, ?_⟩
  intro env s m hs
  have hg := hget env.stockGetByLocation s m.LocationID hs
  have hprod : ProductRepository.GetByID env.productGet { s with movements := l₂ } m.ProductID
      = ProductRepository.GetByID env.productGet s m.ProductID := rfl
  have hloc : LocationRepository.GetByID env.locationGet { s with movements := l₂ } m.LocationID
      = LocationRepository.GetByID env.locationGet s m.LocationID := rfl
  unfold Service.RecordMovement
  rw [hprod, hloc, ← hg]
  unfold StockRepository.Create
  repeat' split
  all_goals simp_all

/-- Witness for C11: the rows IN 80, OUT 30, IN 10 in two orders give occupancy 60. -/
theorem getLocationStock_perm_witness :
    Service.locationStockLoop exLedgerA = Service.locationStockLoop exLedgerB :=
  (getLocationStock_perm exLedgerA exLedgerB (by decide)).1

/-! ## The constructors and the aggregate operations (C13 to C18) -/

/-- C13. `NewStockMovement` returns an error exactly when `productID <= 0` or
`locationID <= 0` or the type is neither IN nor OUT or `quantity <= 0`; otherwise it
returns the movement with those four fields and id 0. -/
theorem newStockMovement_spec (productID locationID : Int) (t : MovementType) (q : Int)
    (now : Nat) :
    ((∃ e, NewStockMovement productID locationID t q now = .error e) ↔
      (productID ≤ 0 ∨ locationID ≤ 0 ∨ (t ≠ MovementTypeIN ∧ t ≠ MovementTypeOUT) ∨ q ≤ 0)) ∧
    (¬ (productID ≤ 0 ∨ locationID ≤ 0 ∨ (t ≠ MovementTypeIN ∧ t ≠ MovementTypeOUT) ∨ q ≤ 0) →
      NewStockMovement productID locationID t q now
        = .ok { ID := 0, ProductID := productID, LocationID := locationID, Type_ := t,
                Quantity := q, CreatedAt := now }) := by
  unfold NewStockMovement
  by_cases h1 : productID ≤ 0
  · simp [h1]
  · by_cases h2 : locationID ≤ 0
    · simp [h1, h2]
    · by_cases h3 : t ≠ MovementTypeIN ∧ t ≠ MovementTypeOUT
      · simp [h1, h2, h3]
      · by_cases h4 : q ≤ 0
        · simp [h1, h2, h3, h4]
        · simp [h1, h2, h3, h4]

/-- Witness for C13: product 1, location 1, IN, quantity 50. -/
theorem newStockMovement_spec_witness :
    NewStockMovement 1 1 "IN" 50 5
      = .ok { ID := 0, ProductID := 1, LocationID := 1, Type_ := "IN", Quantity := 50,
              CreatedAt := 5 } :=
  (newStockMovement_spec 1 1 "IN" 50 5).2 (by decide)

/-- C14. `Product.DecreaseStock` fails and leaves the product as it was when
`delta <= 0`, and when `delta > q` (then with the insufficient-stock error, for a
positive delta or a quantity that is not negative); otherwise it succeeds and leaves
`q - delta`, in particular 0 for `delta = q`. -/
theorem decreaseStock_spec (p : Product) (delta : Int) :
    (delta ≤ 0 →
      (p.DecreaseStock delta).1 = some (.new "quantity to decrease must be positive") ∧
        (p.DecreaseStock delta).2 = p) ∧
    (p.Quantity < delta → (0 < delta ∨ 0 ≤ p.Quantity) →
      (p.DecreaseStock delta).1 = some (.new "insufficient stock") ∧
        (p.DecreaseStock delta).2 = p) ∧
    (0 < delta → delta ≤ p.Quantity → InRange64 p.Quantity →
      (p.DecreaseStock delta).1 = none ∧
        (p.DecreaseStock delta).2 = { p with Quantity := p.Quantity - delta }) ∧
    (0 < delta → delta = p.Quantity →
      (p.DecreaseStock delta).1 = none ∧ (p.DecreaseStock delta).2.Quantity = 0) := by
  refine ⟨fun h => ?_, fun hlt hpos => ?_, fun hpos hle hr => ?_, fun hpos heq => ?_⟩
  · simp [Product.DecreaseStock, h]
  · have hd : ¬ delta ≤ 0 := by omega
    simp [Product.DecreaseStock, hd, hlt]
  · have hd : ¬ delta ≤ 0 := by omega
    have hn : ¬ p.Quantity < delta := by omega
    have hw : wrap64 (p.Quantity - delta) = p.Quantity - delta := by
      apply wrap64_of_inRange
      unfold InRange64 at hr ⊢
      omega
    simp [Product.DecreaseStock, hd, hn, hw]
  · have hd : ¬ delta ≤ 0 := by omega
    have hn : ¬ p.Quantity < delta := by omega
    have hz : p.Quantity - delta = 0 := by omega
    have hw : wrap64 (0 : Int) = 0 := by decide
    simp [Product.DecreaseStock, hd, hn, hz, hw]

/-- Witness for C14: quantity 100, decrease by 100 leaves 0. -/
theorem decreaseStock_spec_witness :
    (Product.DecreaseStock { ID := 1, SKUName := "SKU-001", Quantity := 100 } 100).1 = none ∧
      (Product.DecreaseStock { ID := 1, SKUName := "SKU-001", Quantity := 100 } 100).2.Quantity
        = 0 :=
  (decreaseStock_spec { ID := 1, SKUName := "SKU-001", Quantity := 100 } 100).2.2.2
    (by decide) rfl

/-- C15. `Product.IncreaseStock` fails and leaves the product as it was when
`delta <= 0`; otherwise it succeeds and leaves `q + delta` when that fits in 64 bits;
the id and the SKU name are the same afterwards in every case. -/
theorem increaseStock_spec (p : Product) (delta : Int) :
    (delta ≤ 0 →
      (p.IncreaseStock delta).1 = some (.new "quantity to increase must be positive") ∧
        (p.IncreaseStock delta).2 = p) ∧
    (0 < delta → InRange64 (p.Quantity + delta) →
      (p.IncreaseStock delta).1 = none ∧
        (p.IncreaseStock delta).2.Quantity = p.Quantity + delta) ∧
    ((p.IncreaseStock delta).2.ID = p.ID ∧ (p.IncreaseStock delta).2.SKUName = p.SKUName) := by
  refine ⟨fun h => ?_, fun hpos hr => ?_, ?_⟩
  · simp [Product.IncreaseStock, h]
  · have hd : ¬ delta ≤ 0 := by omega
    simp [Product.IncreaseStock, hd, wrap64_of_inRange hr]
  · unfold Product.IncreaseStock
    split <;> exact ⟨rfl, rfl⟩

/-- Witness for C15: quantity 100, increase by 50 leaves 150. -/
theorem increaseStock_spec_witness :
    (Product.IncreaseStock { ID := 1, SKUName := "SKU-001", Quantity := 100 } 50).1 = none ∧
      (Product.IncreaseStock { ID := 1, SKUName := "SKU-001", Quantity := 100 } 50).2.Quantity
        = 100 + 50 :=
  (increaseStock_spec { ID := 1, SKUName := "SKU-001", Quantity := 100 } 50).2.1
    (by decide) (by decide)

/-- C16. When `currentStock + incomingQuantity` fits in 64 bits,
`Location.CanAccommodate` answers true exactly when
`currentStock + incomingQuantity <= Capacity`; it is a function of the location and
the two numbers and returns nothing but the answer. -/
theorem canAccommodate_spec (l : Location) (currentStock incomingQuantity : Int)
    (hr : InRange64 (currentStock + incomingQuantity)) :
    l.CanAccommodate currentStock incomingQuantity = true
      ↔ currentStock + incomingQuantity ≤ l.Capacity := by
  simp [Location.CanAccommodate, wrap64_of_inRange hr]

/-- Witness for C16: capacity 100, occupancy 80, incoming 20. -/
theorem canAccommodate_spec_witness :
    Location.CanAccommodate { ID := 1, Code := "LOC-A1", Name := "Warehouse A", Capacity := 100 }
        80 20 = true
      ↔ (80 : Int) + 20 ≤ 100 :=
  canAccommodate_spec { ID := 1, Code := "LOC-A1", Name := "Warehouse A", Capacity := 100 }
    80 20 (by decide)

/-- C17. `NewLocation` returns an error exactly when the code is empty or the name is
empty or `capacity <= 0`; otherwise it returns the location with exactly those
fields (id 0); every location it returns has `Capacity > 0`. -/
theorem newLocation_spec (code name : String) (capacity : Int) :
    ((∃ e, NewLocation code name capacity = .error e) ↔
      (code = "" ∨ name = "" ∨ capacity ≤ 0)) ∧
    (¬ (code = "" ∨ name = "" ∨ capacity ≤ 0) →
      NewLocation code name capacity
        = .ok { ID := 0, Code := code, Name := name, Capacity := capacity }) ∧
    (∀ l, NewLocation code name capacity = .ok l → 0 < l.Capacity) := by
  unfold NewLocation
  by_cases h1 : code = ""
  · simp [h1]
  · by_cases h2 : name = ""
    · simp [h1, h2]
    · by_cases h3 : capacity ≤ 0
      · simp [h1, h2, h3]
      · simp [h1, h2, h3]
        omega

/-- Witness for C17: code LOC-A1, name Warehouse A, capacity 500. -/
theorem newLocation_spec_witness :
    NewLocation "LOC-A1" "Warehouse A" 500
      = .ok { ID := 0, Code := "LOC-A1", Name := "Warehouse A", Capacity := 500 } :=
  (newLocation_spec "LOC-A1" "Warehouse A" 500).2.1 (by decide)

/-- C18. `NewProduct` returns an error exactly when the SKU name is empty or
`quantity < 0`; otherwise it returns the product with that SKU name and quantity and
id 0; every product it returns has `Quantity >= 0`, and quantity 0 is accepted. -/
theorem newProduct_spec (skuName : String) (quantity : Int) :
    ((∃ e, NewProduct skuName quantity = .error e) ↔ (skuName = "" ∨ quantity < 0)) ∧
    (¬ (skuName = "" ∨ quantity < 0) →
      NewProduct skuName quantity
        = .ok { ID := 0, SKUName := skuName, Quantity := quantity }) ∧
    (∀ p, NewProduct skuName quantity = .ok p → 0 ≤ p.Quantity) ∧
    (skuName ≠ "" → NewProduct skuName 0 = .ok { ID := 0, SKUName := skuName, Quantity := 0 }) := by
  unfold NewProduct
  by_cases h1 : skuName = ""
  · simp [h1]
  · by_cases h2 : quantity < 0
    · simp [h1, h2]
    · simp [h1, h2]
      omega

/-- Witness for C18: SKU-001 with quantity 0. -/
theorem newProduct_spec_witness :
    NewProduct "SKU-001" 0 = .ok { ID := 0, SKUName := "SKU-001", Quantity := 0 } :=
  (newProduct_spec "SKU-001" 0).2.2.2 (by decide)

/-! ## Malformed candidates (C12) -/

/-- C12, as it stands, fails: product 1 (quantity 100) and location 1 exist, the
candidate is an OUT with quantity -5; `Service.RecordMovement` returns no error and
the row is in the ledger. -/
theorem recordMovement_malformed_counterexample :
    (exMove "OUT" (-5)).Quantity ≤ 0 ∧
      (Service.RecordMovement (Env.calm 5 6) exStore (exMove "OUT" (-5))).err = none ∧
      (Service.RecordMovement (Env.calm 5 6) exStore (exMove "OUT" (-5))).store.movements
        = [{ ID := 1, ProductID := 1, LocationID := 1, Type_ := "OUT", Quantity := -5,
             CreatedAt := 6 }] := by
  refine ⟨by decide, rfl, rfl⟩

/-- C12, amended. A request that violates a structural constraint (`ProductID <= 0`,
`LocationID <= 0`, `Quantity <= 0`, or a type that is neither IN nor OUT) is refused
by `Execute` with one of the structural errors of `NewStockMovement`, whatever the
stores hold, and the stores are left as they were. -/
theorem execute_structural_rejected (env : Env) (s : Store)
    (req : RecordStockMovementRequest)
    (hbad : req.ProductID ≤ 0 ∨ req.LocationID ≤ 0 ∨ req.Quantity ≤ 0 ∨
      (req.Type_ ≠ MovementTypeIN ∧ req.Type_ ≠ MovementTypeOUT)) :
    (∃ e, e ∈ structuralErrors ∧
      (RecordStockMovementCommand.Execute env s req).err = some e) ∧
    (RecordStockMovementCommand.Execute env s req).resp = none ∧
    (RecordStockMovementCommand.Execute env s req).store = s := by
  have hnew : ∃ e, e ∈ structuralErrors ∧
      NewStockMovement req.ProductID req.LocationID req.Type_ req.Quantity env.now
        = .error e := by
    unfold NewStockMovement structuralErrors
    by_cases h1 : req.ProductID ≤ 0
    · exact ⟨.new "invalid product ID", by simp, by simp [h1]⟩
    · by_cases h2 : req.LocationID ≤ 0
      · exact ⟨.new "invalid location ID", by simp, by simp [h1, h2]⟩
      · by_cases h3 : req.Type_ ≠ MovementTypeIN ∧ req.Type_ ≠ MovementTypeOUT
        · exact ⟨.new "invalid movement type", by simp, by simp [h1, h2, h3]⟩
        · by_cases h4 : req.Quantity ≤ 0
          · exact ⟨.new "quantity must be positive", by simp, by simp [h1, h2, h3, h4]⟩
          · exfalso
            rcases hbad with h | h | h | h
            · exact h1 h
            · exact h2 h
            · exact h4 h
            · exact h3 h
  obtain ⟨e, hmem, he⟩ := hnew
  refine ⟨⟨e, hmem, ?_⟩, ?_, ?_⟩ <;> simp [RecordStockMovementCommand.Execute, he]

/-- Witness for the amended C12: a request with quantity -5 for an existing product
and location. -/
theorem execute_structural_rejected_witness :
    (RecordStockMovementCommand.Execute (Env.calm 5 6) exStore (exReq "OUT" (-5))).store
      = exStore :=
  (execute_structural_rejected (Env.calm 5 6) exStore (exReq "OUT" (-5))
    (by decide)).2.2

/-! ## Persistence failures inside the recorder (C19) -/

/-- C19, evaluated: when the product lookup of the recorder fails with a persistence
failure (the connection is reset), `Service.RecordMovement` does not return that
failure but a new product-not-found error; likewise a failing location lookup comes
back as a new location-not-found error. -/
theorem recordMovement_masks_lookup_failure :
    ProductRepository.GetByID exEnvProductGetFails.productGet exStore (exMove "IN" 10).ProductID
        = .error (.infra "connection reset") ∧
      (Service.RecordMovement exEnvProductGetFails exStore (exMove "IN" 10)).err
        = some (.new "product not found") ∧
      (Service.RecordMovement exEnvProductGetFails exStore (exMove "IN" 10)).err
        ≠ some (.infra "connection reset") ∧
      LocationRepository.GetByID exEnvLocationGetFails.locationGet exStore
          (exMove "IN" 10).LocationID
        = .error (.infra "connection reset") ∧
      (Service.RecordMovement exEnvLocationGetFails exStore (exMove "IN" 10)).err
        = some (.new "location not found") := by
  refine ⟨rfl, rfl, by decide, rfl, rfl⟩

/-- The other two ports of the recorder hand their failure on: an error `e` returned by
`stockRepo.GetByLocation` when the recorder calls it (product and location found, IN candidate), and an error `e` returned by
`stockRepo.Create` when the recorder calls it (the call would succeed with a working
insert), is returned by `Service.RecordMovement` as it is; each port is called once
and the stores are left as they were. -/
theorem recordMovement_propagates (env : Env) (s : Store) (m : StockMovement) (e : Error) :
    (∀ prod loc,
      ProductRepository.GetByID env.productGet s m.ProductID = .ok prod →
      LocationRepository.GetByID env.locationGet s m.LocationID = .ok loc →
      m.Type_ = MovementTypeIN →
      StockRepository.GetByLocation env.stockGetByLocation s m.LocationID = .error e →
      (Service.RecordMovement env s m).err = some e ∧
        (Service.RecordMovement env s m).store = s) ∧
    ((Service.RecordMovement { env with stockCreate := none } s m).err = none →
      (StockRepository.Create env.stockCreate env.dbNow s m).err = some e →
      (Service.RecordMovement env s m).err = some e ∧
        (Service.RecordMovement env s m).store = s) := by
  constructor
  · intro prod loc hp hl hin hget
    have hi : m.IsInbound = true := by simp [StockMovement.IsInbound, hin]
    have ho : m.IsOutbound = false := by simp [StockMovement.IsOutbound, hin, in_ne_out]
    simp [Service.RecordMovement, hp, hl, hi, ho, Service.getLocationStock, hget]
  · intro hreach hcreate
    obtain ⟨_, _, _, prod, loc, hp, hl, hout, hin⟩ :=
      recordMovement_ok { env with stockCreate := none } s m hreach
    have hp2 : ProductRepository.GetByID env.productGet s m.ProductID = .ok prod := hp
    have hl2 : LocationRepository.GetByID env.locationGet s m.LocationID = .ok loc := hl
    have hstore : (StockRepository.Create env.stockCreate env.dbNow s m).store = s := by
      unfold StockRepository.Create at hcreate ⊢
      cases hc : env.stockCreate with
      | some c => rfl
      | none => rw [hc] at hcreate; simp at hcreate
    cases ho : m.IsOutbound with
    | true =>
      have hle : ¬ prod.Quantity < m.Quantity := not_lt.mpr (hout ho)
      simp [Service.RecordMovement, hp2, hl2, ho, hle, hcreate, hstore]
    | false =>
      cases hi : m.IsInbound with
      | true =>
        obtain ⟨cur, hcur, hcan⟩ := hin ho hi
        have hcur2 : Service.getLocationStock env.stockGetByLocation s m.LocationID
            = .ok cur := hcur
        simp [Service.RecordMovement, hp2, hl2, ho, hi, hcur2, hcan, hcreate, hstore]
      | false =>
        simp [Service.RecordMovement, hp2, hl2, ho, hi, hcreate, hstore]

/-- An instance of `recordMovement_propagates`: the insert of an admissible IN of 50
fails; the failure is what `Service.RecordMovement` returns. -/
theorem recordMovement_propagates_witness :
    (Service.RecordMovement exEnvCreateFails exStore (exMove "IN" 50)).err
        = some (.infra "connection reset") ∧
      (Service.RecordMovement exEnvCreateFails exStore (exMove "IN" 50)).store = exStore :=
  (recordMovement_propagates exEnvCreateFails exStore (exMove "IN" 50)
    (.infra "connection reset")).2 rfl rfl

/-! ## A location that is already full (C20) -/

/-- C20. When the occupancy of a location is at least its capacity (product and
location found, the ledger read succeeding, the rows of the location typed IN or OUT,
`occupancy + q` fitting in 64 bits), an IN candidate with positive quantity at that
location is refused with the capacity-exceeded error and the stores are left as they
were. -/
theorem recordMovement_in_full (env : Env) (s : Store) (m : StockMovement)
    (prod : Product) (loc : Location)
    (hp : ProductRepository.GetByID env.productGet s m.ProductID = .ok prod)
    (hl : LocationRepository.GetByID env.locationGet s m.LocationID = .ok loc)
    (hin : m.Type_ = MovementTypeIN) (hq : 0 < m.Quantity)
    (hread : env.stockGetByLocation = none)
    (hw : WellTyped (s.movementsAt m.LocationID))
    (hr : InRange64 (s.occupancy m.LocationID + m.Quantity))
    (hfull : loc.Capacity ≤ s.occupancy m.LocationID) :
    (Service.RecordMovement env s m).err = some (.new "location capacity exceeded") ∧
      (Service.RecordMovement env s m).store = s ∧
      (Service.RecordMovement env s m).store.movements = s.movements := by
  have hi : m.IsInbound = true := by simp [StockMovement.IsInbound, hin]
  have ho : m.IsOutbound = false := by simp [StockMovement.IsOutbound, hin, in_ne_out]
  have hloop := locationStockLoop_eq _ hw
  have hstock : Service.getLocationStock env.stockGetByLocation s m.LocationID
      = .ok (wrap64 (s.occupancy m.LocationID)) := by
    simp only [Service.getLocationStock, StockRepository.GetByLocation, hread]
    simp only [Store.movementsAt] at hloop
    rw [hloop]
    rfl
  have hcan : loc.CanAccommodate (wrap64 (s.occupancy m.LocationID)) m.Quantity = false := by
    simp only [Location.CanAccommodate]
    rw [wrap64_add_left, wrap64_of_inRange hr]
    simp only [decide_eq_false_iff_not, not_le]
    omega
  simp [Service.RecordMovement, hp, hl, hi, ho, hstock, hcan]

/-- Witness for C20: occupancy 80, capacity lowered to 50 by a location update; an IN
of 1 is refused. -/
theorem recordMovement_in_full_witness :
    (Service.RecordMovement (Env.calm 5 6) exStoreLowered (exMove "IN" 1)).err
        = some (.new "location capacity exceeded") ∧
      (Service.RecordMovement (Env.calm 5 6) exStoreLowered (exMove "IN" 1)).store
        = exStoreLowered ∧
      (Service.RecordMovement (Env.calm 5 6) exStoreLowered (exMove "IN" 1)).store.movements
        = exStoreLowered.movements :=
  recordMovement_in_full (Env.calm 5 6) exStoreLowered (exMove "IN" 1)
    { ID := 1, SKUName := "SKU-001", Quantity := 100 }
    { ID := 1, Code := "LOC-A1", Name := "Warehouse A", Capacity := 50 }
    rfl rfl rfl (by decide) rfl (by decide) (by decide) (by decide)

/-! ## What each direction looks at (C21), an append-only ledger (C22) -/

/-- C21. For an OUT candidate, two stores that hold the same product row for the
candidate and agree on whether its location exists give the same result of
`Service.RecordMovement`, whatever their capacities and ledgers; for an IN candidate,
two stores that hold the same location row and the same ledger rows for that location
and agree on whether the product exists give the same result, whatever the
quantities of the product. -/
theorem recordMovement_asymmetry (env : Env) (s₁ s₂ : Store) (m : StockMovement) :
    (m.Type_ = MovementTypeOUT →
      s₁.products.find? (fun p => decide (p.ID = m.ProductID))
        = s₂.products.find? (fun p => decide (p.ID = m.ProductID)) →
      (s₁.locations.find? (fun l => decide (l.ID = m.LocationID))).isSome
        = (s₂.locations.find? (fun l => decide (l.ID = m.LocationID))).isSome →
      (Service.RecordMovement env s₁ m).err = (Service.RecordMovement env s₂ m).err) ∧
    (m.Type_ = MovementTypeIN →
      s₁.locations.find? (fun l => decide (l.ID = m.LocationID))
        = s₂.locations.find? (fun l => decide (l.ID = m.LocationID)) →
      s₁.movementsAt m.LocationID = s₂.movementsAt m.LocationID →
      (s₁.products.find? (fun p => decide (p.ID = m.ProductID))).isSome
        = (s₂.products.find? (fun p => decide (p.ID = m.ProductID))).isSome →
      (Service.RecordMovement env s₁ m).err = (Service.RecordMovement env s₂ m).err) := by
  constructor
  · intro hout hprod hloc
    have ho : m.IsOutbound = true := by simp [StockMovement.IsOutbound, hout]
    simp only [Service.RecordMovement, ProductRepository.GetByID, LocationRepository.GetByID,
      StockRepository.Create, ho, hprod]
    cases env.productGet <;> cases env.locationGet <;> cases env.stockCreate <;>
      cases s₂.products.find? (fun p => decide (p.ID = m.ProductID)) <;>
      cases h1 : s₁.locations.find? (fun l => decide (l.ID = m.LocationID)) <;>
      cases h2 : s₂.locations.find? (fun l => decide (l.ID = m.LocationID)) <;>
      simp_all <;> split <;> rfl
  · intro hin hloc hled hprod
    have hi : m.IsInbound = true := by simp [StockMovement.IsInbound, hin]
    have ho : m.IsOutbound = false := by simp [StockMovement.IsOutbound, hin, in_ne_out]
    have hled2 : List.filter (fun x => decide (x.LocationID = m.LocationID)) s₁.movements
        = List.filter (fun x => decide (x.LocationID = m.LocationID)) s₂.movements := hled
    simp only [Service.RecordMovement, ProductRepository.GetByID, LocationRepository.GetByID,
      StockRepository.Create, Service.getLocationStock, StockRepository.GetByLocation,
      ho, hi, hloc, hled2]
    cases env.productGet <;> cases env.locationGet <;> cases env.stockCreate <;>
      cases env.stockGetByLocation <;>
      cases s₂.locations.find? (fun l => decide (l.ID = m.LocationID)) <;>
      cases h1 : s₁.products.find? (fun p => decide (p.ID = m.ProductID)) <;>
      cases h2 : s₂.products.find? (fun p => decide (p.ID = m.ProductID)) <;>
      simp_all <;> split <;> rfl

/-- Witness for C21: an OUT of 50 for product 1 (quantity 100) gets the same answer in
the store with capacity 500 and an empty ledger and in the store with capacity 100 and
a prior IN of 80. -/
theorem recordMovement_asymmetry_witness :
    (Service.RecordMovement (Env.calm 5 6) exStore (exMove "OUT" 50)).err
      = (Service.RecordMovement (Env.calm 5 6) exStoreFull (exMove "OUT" 50)).err :=
  (recordMovement_asymmetry (Env.calm 5 6) exStore exStoreFull (exMove "OUT" 50)).1
    rfl rfl rfl

/-- C22. A call of `Service.RecordMovement` and a call of `Execute` leave the ledger
they found as the beginning of the ledger afterwards, followed by at most one new
row: every row that was there is still there, in place and unchanged. -/
theorem ledger_append_only (env : Env) (s : Store) :
    (∀ m : StockMovement,
      ∃ added, (Service.RecordMovement env s m).store.movements = s.movements ++ added ∧
        added.length ≤ 1) ∧
    (∀ req : RecordStockMovementRequest,
      ∃ added, (RecordStockMovementCommand.Execute env s req).store.movements
          = s.movements ++ added ∧ added.length ≤ 1) ∧
    (∀ (m : StockMovement) (x : StockMovement), x ∈ s.movements →
      x ∈ (Service.RecordMovement env s m).store.movements) ∧
    (∀ (req : RecordStockMovementRequest) (x : StockMovement), x ∈ s.movements →
      x ∈ (RecordStockMovementCommand.Execute env s req).store.movements) := by
  have hrec : ∀ m : StockMovement,
      ∃ added, (Service.RecordMovement env s m).store.movements = s.movements ++ added ∧
        added.length ≤ 1 := by
    intro m
    cases herr : (Service.RecordMovement env s m).err with
    | some e =>
      exact ⟨[], by rw [(recordMovement_err env s m e herr).1]; simp, by simp⟩
    | none =>
      exact ⟨[s.rowFor env.dbNow m],
        by rw [(recordMovement_ok env s m herr).1]; rfl, by simp⟩
  have hexe : ∀ req : RecordStockMovementRequest,
      ∃ added, (RecordStockMovementCommand.Execute env s req).store.movements
          = s.movements ++ added ∧ added.length ≤ 1 := by
    intro req
    rcases execute_cases env s req with h | ⟨_, _, prod, _, _, h | h⟩
    · exact ⟨[], by rw [h.1]; simp, by simp⟩
    · obtain ⟨_, _, _, _, hstore⟩ := h
      exact ⟨[s.rowFor env.dbNow (candidateOf req env.now)], by rw [hstore]; rfl, by simp⟩
    · obtain ⟨_, _, _, _, hstore⟩ := h
      exact ⟨[s.rowFor env.dbNow (candidateOf req env.now)], by rw [hstore]; rfl, by simp⟩
  refine ⟨hrec, hexe, ?_, ?_⟩
  · intro m x hx
    obtain ⟨added, h, _⟩ := hrec m
    rw [h]; exact List.mem_append_left _ hx
  · intro req x hx
    obtain ⟨added, h, _⟩ := hexe req
    rw [h]; exact List.mem_append_left _ hx

/-- Witness for C22: the prior IN of 80 is still in the ledger after an IN of 20. -/
theorem ledger_append_only_witness :
    ({ ID := 1, ProductID := 1, LocationID := 1, Type_ := "IN", Quantity := 80,
       CreatedAt := 3 } : StockMovement)
      ∈ (RecordStockMovementCommand.Execute (Env.calm 5 6) exStoreFull
          (exReq "IN" 20)).store.movements :=
  (ledger_append_only (Env.calm 5 6) exStoreFull).2.2.2 (exReq "IN" 20) _ (by decide)

/-! ## What a call may touch (C26) -/

theorem filter_other_map_update (ps : List Product) (p' : Product) :
    (ps.map (fun x => if x.ID = p'.ID then p' else x)).filter
        (fun x => decide (x.ID ≠ p'.ID))
      = ps.filter (fun x => decide (x.ID ≠ p'.ID)) := by
  induction ps with
  | nil => rfl
  | cons a as ih =>
    by_cases h : a.ID = p'.ID
    · simp only [List.map_cons, if_pos h, List.filter_cons]
      simp only [ne_eq, not_true_eq_false, decide_False, h, Bool.false_eq_true, if_false]
      exact ih
    · simp only [List.map_cons, if_neg h, List.filter_cons]
      simp only [ne_eq, h, not_false_eq_true, decide_True, if_true]
      rw [ih]

theorem same_id_same_row {ps : List Product} (hnd : (ps.map (fun x => x.ID)).Nodup)
    {x y : Product} (hx : x ∈ ps) (hy : y ∈ ps) (hid : x.ID = y.ID) : x = y :=
  List.inj_on_of_nodup_map hnd hx hy hid

/-- C26. A call of `Execute`, accepted or not, leaves the locations as they were,
keeps the number of product rows and every product row whose id is not the one the
request names; when the ids of the product rows are pairwise different (the primary
key), the rows afterwards are the rows before with at most the quantity of the named
product replaced. `Service.RecordMovement` leaves all products and all locations as
they were. -/
theorem execute_frame (env : Env) (s : Store) (req : RecordStockMovementRequest) :
    (RecordStockMovementCommand.Execute env s req).store.locations = s.locations ∧
    (RecordStockMovementCommand.Execute env s req).store.products.length
      = s.products.length ∧
    (RecordStockMovementCommand.Execute env s req).store.products.filter
        (fun x => decide (x.ID ≠ req.ProductID))
      = s.products.filter (fun x => decide (x.ID ≠ req.ProductID)) ∧
    ((s.products.map (fun x => x.ID)).Nodup →
      ∃ q, (RecordStockMovementCommand.Execute env s req).store.products
        = s.products.map
            (fun x => if x.ID = req.ProductID then { x with Quantity := q } else x)) ∧
    (∀ m : StockMovement,
      (Service.RecordMovement env s m).store.products = s.products ∧
        (Service.RecordMovement env s m).store.locations = s.locations) := by
  have hsame : (s.products.map (fun x => x.ID)).Nodup →
      ∃ q, s.products
        = s.products.map
            (fun x => if x.ID = req.ProductID then { x with Quantity := q } else x) := by
    intro hnd
    cases hf : s.products.find? (fun x => decide (x.ID = req.ProductID)) with
    | none =>
      refine ⟨0, ?_⟩
      rw [List.find?_eq_none] at hf
      conv_lhs => rw [← List.map_id s.products]
      apply List.map_congr_left
      intro x hx
      have : ¬ x.ID = req.ProductID := by simpa using hf x hx
      rw [if_neg this]; rfl
    | some p =>
      obtain ⟨hid, hmem⟩ := find_product_id hf
      refine ⟨p.Quantity, ?_⟩
      conv_lhs => rw [← List.map_id s.products]
      apply List.map_congr_left
      intro x hx
      by_cases h : x.ID = req.ProductID
      · rw [if_pos h]
        have hxp : x = p := same_id_same_row hnd hx hmem (h.trans hid.symm)
        subst hxp
        rfl
      · rw [if_neg h]; rfl
  have hrec : ∀ m : StockMovement,
      (Service.RecordMovement env s m).store.products = s.products ∧
        (Service.RecordMovement env s m).store.locations = s.locations := by
    intro m
    cases herr : (Service.RecordMovement env s m).err with
    | some e => rw [(recordMovement_err env s m e herr).1]; exact ⟨rfl, rfl⟩
    | none => rw [(recordMovement_ok env s m herr).1]; exact ⟨rfl, rfl⟩
  rcases execute_cases env s req with h | ⟨_, _, prod, hfind, _, h | h⟩
  · rw [h.1]; exact ⟨rfl, rfl, rfl, hsame, hrec⟩
  · obtain ⟨_, _, _, _, hstore⟩ := h
    rw [hstore]; exact ⟨rfl, rfl, rfl, hsame, hrec⟩
  · obtain ⟨_, _, _, _, hstore⟩ := h
    obtain ⟨hid, hmem⟩ := find_product_id hfind
    have hsid : (steppedProduct prod req).ID = req.ProductID := hid
    rw [hstore]
    refine ⟨rfl, ?_, ?_, ?_, hrec⟩
    · simp [Store.withProduct, Store.withRow]
    · have := filter_other_map_update s.products (steppedProduct prod req)
      rw [hsid] at this
      simp only [Store.withProduct, Store.withRow, hsid]
      exact this
    · intro hnd
      refine ⟨(steppedProduct prod req).Quantity, ?_⟩
      simp only [Store.withProduct, Store.withRow]
      apply List.map_congr_left
      intro x hx
      rw [hsid]
      by_cases h : x.ID = req.ProductID
      · rw [if_pos h, if_pos h]
        have hxp : x = prod := same_id_same_row hnd hx hmem (h.trans hid.symm)
        subst hxp
        rfl
      · rw [if_neg h, if_neg h]

/-- Witness for C26: an accepted IN of 50 changes only the quantity of product 1. -/
theorem execute_frame_witness :
    ∃ q, (RecordStockMovementCommand.Execute (Env.calm 5 6) exStore (exReq "IN" 50)).store.products
      = exStore.products.map (fun x => if x.ID = 1 then { x with Quantity := q } else x) :=
  (execute_frame (Env.calm 5 6) exStore (exReq "IN" 50)).2.2.2.1 (by decide)

/-! ## After the insert (C27) -/

theorem reload_after_record (env : Env) (s : Store) (m : StockMovement) (prod : Product)
    (hrec : (Service.RecordMovement env s m).err = none)
    (hp : ProductRepository.GetByID env.productGet s m.ProductID = .ok prod) :
    ProductRepository.GetByID none (Service.RecordMovement env s m).store m.ProductID
      = .ok prod := by
  rw [(recordMovement_ok env s m hrec).1]
  simp [ProductRepository.GetByID, Store.withRow, (productGetByID_ok hp).2]

/-- C27. When the request passes the constructor, the recorder step of `Execute`
succeeds and the reload is not hit by an infrastructure failure, the reload returns
the very product the recorder read, the `IncreaseStock`/`DecreaseStock` call on it
returns no error, and `Execute` either succeeds or returns the infrastructure failure
of `productRepo.Update`. -/
theorem only_update_fails_after_insert (env : Env) (s : Store)
    (req : RecordStockMovementRequest) (m : StockMovement)
    (hnew : NewStockMovement req.ProductID req.LocationID req.Type_ req.Quantity env.now
      = .ok m)
    (hrec : (Service.RecordMovement env s m).err = none)
    (hre : env.productReload = none) :
    ∃ prod, ProductRepository.GetByID env.productGet s req.ProductID = .ok prod ∧
      ProductRepository.GetByID env.productReload (Service.RecordMovement env s m).store
          req.ProductID = .ok prod ∧
      (if (Service.RecordMovement env s m).movement.IsInbound
        then prod.IncreaseStock req.Quantity else prod.DecreaseStock req.Quantity).1 = none ∧
      ((RecordStockMovementCommand.Execute env s req).err = none ∨
        ∃ cause, env.productUpdate = some cause ∧
          (RecordStockMovementCommand.Execute env s req).err = some (.infra cause)) := by
  obtain ⟨_, _, htype, hq, hm⟩ := newStockMovement_ok hnew
  have hm2 : m = candidateOf req env.now := hm
  subst hm2
  obtain ⟨_, hmov, _, prod, loc, hp, _, hout, _⟩ := recordMovement_ok env s _ hrec
  have hp2 : ProductRepository.GetByID env.productGet s req.ProductID = .ok prod := hp
  have hreload := reload_after_record env s _ prod hrec hp
  have hreload2 : ProductRepository.GetByID env.productReload
      (Service.RecordMovement env s (candidateOf req env.now)).store req.ProductID
      = .ok prod := by
    rw [hre]; exact hreload
  have hqn : ¬ req.Quantity ≤ 0 := not_le.mpr hq
  have hstep : (if (Service.RecordMovement env s (candidateOf req env.now)).movement.IsInbound
      then prod.IncreaseStock req.Quantity else prod.DecreaseStock req.Quantity).1 = none := by
    rw [hmov]
    rcases htype with hin | hout2
    · simp [StockMovement.IsInbound, candidateOf, hin, Product.IncreaseStock, hqn]
    · have hne : req.Type_ ≠ MovementTypeIN := by rw [hout2]; exact in_ne_out.symm
      have hle : ¬ prod.Quantity < req.Quantity := not_lt.mpr
        (hout (by simp [StockMovement.IsOutbound, candidateOf, hout2]))
      simp [StockMovement.IsInbound, candidateOf, hne, Product.DecreaseStock, hqn, hle]
  refine ⟨prod, hp2, hreload2, hstep, ?_⟩
  rcases execute_cases env s req with h | ⟨_, _, _, _, _, h | h⟩
  · obtain ⟨_, _, e, _, h1 | h1⟩ := h
    · rw [hnew] at h1; simp at h1
    · rw [hrec] at h1; simp at h1
  · obtain ⟨cause, hc, herr, _⟩ := h
    rcases hc with hc | ⟨_, hc⟩
    · rw [hre] at hc; simp at hc
    · exact Or.inr ⟨cause, hc, herr⟩
  · exact Or.inl h.2.2.1

/-- Witness for C27: an OUT of 20 from quantity 100 whose product update fails. -/
theorem only_update_fails_after_insert_witness :
    ∃ prod, ProductRepository.GetByID exEnvUpdateFails.productGet exStore 1 = .ok prod ∧
      ProductRepository.GetByID exEnvUpdateFails.productReload
          (Service.RecordMovement exEnvUpdateFails exStore
            (candidateOf (exReq "OUT" 20) 5)).store 1 = .ok prod ∧
      (if (Service.RecordMovement exEnvUpdateFails exStore
            (candidateOf (exReq "OUT" 20) 5)).movement.IsInbound
        then prod.IncreaseStock 20 else prod.DecreaseStock 20).1 = none ∧
      ((RecordStockMovementCommand.Execute exEnvUpdateFails exStore (exReq "OUT" 20)).err
          = none ∨
        ∃ cause, exEnvUpdateFails.productUpdate = some cause ∧
          (RecordStockMovementCommand.Execute exEnvUpdateFails exStore (exReq "OUT" 20)).err
            = some (.infra cause)) :=
  only_update_fails_after_insert exEnvUpdateFails exStore (exReq "OUT" 20)
    (candidateOf (exReq "OUT" 20) 5) rfl rfl rfl

/-! ## Occupancy below zero (C28) -/

/-- C28. From a product created with quantity 1000 and a location created with
capacity 100, `Execute` accepts an OUT of 500, which leaves the occupancy of the
location at -500, and then accepts an IN of 600, more than the capacity, since
`-500 + 600 <= 100`. -/
theorem oversized_in_after_out :
    NewProduct "SKU-001" 1000 = .ok { ID := 0, SKUName := "SKU-001", Quantity := 1000 } ∧
    NewLocation "LOC-A1" "Warehouse A" 100
      = .ok { ID := 0, Code := "LOC-A1", Name := "Warehouse A", Capacity := 100 } ∧
    (RecordStockMovementCommand.Execute (Env.calm 5 6) exStoreBig (exReq "OUT" 500)).err
      = none ∧
    (RecordStockMovementCommand.Execute (Env.calm 5 6) exStoreBig
        (exReq "OUT" 500)).store.occupancy 1 = -500 ∧
    Service.getLocationStock none
        (RecordStockMovementCommand.Execute (Env.calm 5 6) exStoreBig (exReq "OUT" 500)).store 1
      = .ok (-500) ∧
    (RecordStockMovementCommand.Execute (Env.calm 7 8)
        (RecordStockMovementCommand.Execute (Env.calm 5 6) exStoreBig (exReq "OUT" 500)).store
        (exReq "IN" 600)).err = none ∧
    (100 : Int) < (exReq "IN" 600).Quantity ∧
    (RecordStockMovementCommand.Execute (Env.calm 7 8)
        (RecordStockMovementCommand.Execute (Env.calm 5 6) exStoreBig (exReq "OUT" 500)).store
        (exReq "IN" 600)).store.movements
      = [{ ID := 1, ProductID := 1, LocationID := 1, Type_ := "OUT", Quantity := 500,
           CreatedAt := 6 },
         { ID := 2, ProductID := 1, LocationID := 1, Type_ := "IN", Quantity := 600,
           CreatedAt := 8 }] := by
  refine ⟨rfl, rfl, rfl, by decide, rfl, rfl, by decide, rfl⟩

/-! ## The authorization header (C25) -/

theorem split_empty (sep : Char) : strings.Split "" sep = [""] := rfl

/-- C25. An empty Authorization header, and a header that does not split at the
spaces into exactly two parts of which the first is `Bearer`, is answered with 401
and the chain is aborted, without any token being verified; for a header that splits
into `Bearer` and a token exactly that token is verified, a failed verification is
answered with 401 and abort, a successful one hands the request on with the claims;
and a token is verified only for a header of that form. -/
theorem authMiddleware_spec (verify : String → Except Error Claims) (h : String) :
    (h = "" →
      (AuthMiddleware verify h).outcome = .aborted 401 "missing authorization header" ∧
        (AuthMiddleware verify h).verified = []) ∧
    (((strings.Split h ' ').length ≠ 2 ∨ (strings.Split h ' ').getD 0 "" ≠ "Bearer") →
      (∃ message, (AuthMiddleware verify h).outcome = .aborted 401 message) ∧
        (AuthMiddleware verify h).verified = [] ∧
        (h ≠ "" → (AuthMiddleware verify h).outcome
          = .aborted 401 "invalid authorization header format")) ∧
    (∀ token, strings.Split h ' ' = ["Bearer", token] →
      (AuthMiddleware verify h).verified = [token] ∧
      (∀ e, verify token = .error e →
        (AuthMiddleware verify h).outcome = .aborted 401 "invalid or expired token") ∧
      (∀ c, verify token = .ok c →
        (AuthMiddleware verify h).outcome = .next c.UserID c.Username)) ∧
    ((AuthMiddleware verify h).verified ≠ [] →
      ∃ token, strings.Split h ' ' = ["Bearer", token]) := by
  refine ⟨fun he => ?_, fun hbad => ?_, fun token hs => ?_, fun hv => ?_⟩
  · subst he
    exact ⟨rfl, rfl⟩
  · by_cases he : h = ""
    · subst he
      exact ⟨⟨_, rfl⟩, rfl, fun hne => absurd rfl hne⟩
    · have hr : AuthMiddleware verify h
          = { outcome := .aborted StatusUnauthorized "invalid authorization header format",
              verified := [] } := by
        simp only [AuthMiddleware, if_neg he, if_pos hbad]
      rw [hr]
      exact ⟨⟨_, rfl⟩, rfl, fun _ => rfl⟩
  · have he : h ≠ "" := by
      intro he
      subst he
      rw [split_empty] at hs
      simp at hs
    have hgood : ¬ ((strings.Split h ' ').length ≠ 2 ∨
        (strings.Split h ' ').getD 0 "" ≠ "Bearer") := by
      rw [hs]; simp
    have htok : (strings.Split h ' ').getD 1 "" = token := by rw [hs]; rfl
    cases hver : verify token with
    | error e =>
      have hr : AuthMiddleware verify h
          = { outcome := .aborted StatusUnauthorized "invalid or expired token",
              verified := [token] } := by
        simp only [AuthMiddleware, if_neg he, if_neg hgood, htok, hver]
      rw [hr]
      exact ⟨rfl, fun _ _ => rfl, fun c hc => by simp at hc⟩
    | ok c =>
      have hr : AuthMiddleware verify h
          = { outcome := .next c.UserID c.Username, verified := [token] } := by
        simp only [AuthMiddleware, if_neg he, if_neg hgood, htok, hver]
      rw [hr]
      exact ⟨rfl, fun e he2 => by simp at he2, fun c2 hc => by
        have : c = c2 := by simpa using hc
        subst this; rfl⟩
  · by_cases he : h = ""
    · subst he
      exact absurd rfl hv
    · by_cases hbad : (strings.Split h ' ').length ≠ 2 ∨
          (strings.Split h ' ').getD 0 "" ≠ "Bearer"
      · have hr : (AuthMiddleware verify h).verified = [] := by
          simp only [AuthMiddleware, if_neg he, if_pos hbad]
        exact absurd hr hv
      · push_neg at hbad
        obtain ⟨hlen, hfirst⟩ := hbad
        match hsp : strings.Split h ' ', hlen, hfirst with
        | [a, b], _, hf =>
          refine ⟨b, ?_⟩
          have : a = "Bearer" := by simpa using hf
          rw [this]

/-- Witness for C25: a header with two spaces has three parts and is refused. -/
theorem authMiddleware_spec_witness :
    (AuthMiddleware exVerify "Bearer  good").outcome
        = .aborted 401 "invalid authorization header format" ∧
      (AuthMiddleware exVerify "Bearer  good").verified = [] :=
  ⟨((authMiddleware_spec exVerify "Bearer  good").2.1 (Or.inl (by decide))).2.2
      (by decide),
    ((authMiddleware_spec exVerify "Bearer  good").2.1 (Or.inl (by decide))).2.1⟩

/-- The middleware on four headers: a well-formed one with a good token, a well-formed
one with a bad token, a lower-case scheme, and no header. -/
theorem authMiddleware_examples :
    AuthMiddleware exVerify "Bearer good"
        = { outcome := .next 7 "admin", verified := ["good"] } ∧
      AuthMiddleware exVerify "Bearer bad"
        = { outcome := .aborted 401 "invalid or expired token", verified := ["bad"] } ∧
      AuthMiddleware exVerify "bearer good"
        = { outcome := .aborted 401 "invalid authorization header format",
            verified := [] } ∧
      AuthMiddleware exVerify ""
        = { outcome := .aborted 401 "missing authorization header", verified := [] } := by
  refine ⟨by decide, by decide, by decide, by decide⟩

/-! ## The product commands (C29, C23) -/

theorem updatedProduct_fields (prod : Product) (req : UpdateProductRequest) :
    (updatedProduct prod req).ID = prod.ID ∧
    (updatedProduct prod req).SKUName
      = (if req.SKUName ≠ "" then req.SKUName else prod.SKUName) ∧
    (updatedProduct prod req).Quantity
      = (if req.Quantity ≥ 0 then req.Quantity else prod.Quantity) := by
  unfold updatedProduct
  by_cases h1 : req.SKUName ≠ "" <;> by_cases h2 : req.Quantity ≥ 0 <;> simp [h1, h2]

/-- C29. For a product `p` that `GetByID` finds and an update that the store accepts,
`UpdateProductCommand.Execute` succeeds and stores, under the id of `p`, the SKU name
of the request when that is not empty and the SKU name of `p` otherwise, and the
quantity of the request when that is `>= 0` and the quantity of `p` otherwise; the
stored quantity is `>= 0` whenever that of `p` is, and a request quantity of 0 stores
0. When no product row has the id, the command fails and the stores are left as they
were. -/
theorem updateProduct_spec (getFault updateFault : Option String) (s : Store) (id : Int)
    (r : UpdateProductRequest) :
    (∀ p, ProductRepository.GetByID getFault s id = .ok p → updateFault = none →
      (UpdateProductCommand.Execute getFault updateFault s id r).err = none ∧
      (UpdateProductCommand.Execute getFault updateFault s id r).store.products.find?
          (fun x => decide (x.ID = id))
        = some { ID := p.ID,
                 SKUName := if r.SKUName ≠ "" then r.SKUName else p.SKUName,
                 Quantity := if r.Quantity ≥ 0 then r.Quantity else p.Quantity } ∧
      (UpdateProductCommand.Execute getFault updateFault s id r).resp
        = some { ID := p.ID,
                 SKUName := if r.SKUName ≠ "" then r.SKUName else p.SKUName,
                 Quantity := if r.Quantity ≥ 0 then r.Quantity else p.Quantity } ∧
      (0 ≤ p.Quantity → 0 ≤ (if r.Quantity ≥ 0 then r.Quantity else p.Quantity)) ∧
      (r.Quantity = 0 → (if r.Quantity ≥ 0 then r.Quantity else p.Quantity) = 0)) ∧
    ((∀ x ∈ s.products, x.ID ≠ id) →
      (∃ e, (UpdateProductCommand.Execute getFault updateFault s id r).err = some e) ∧
      (UpdateProductCommand.Execute getFault updateFault s id r).resp = none ∧
      (UpdateProductCommand.Execute getFault updateFault s id r).store = s) := by
  constructor
  · intro p hp hup
    obtain ⟨_, hfind⟩ := productGetByID_ok hp
    obtain ⟨hid, hmem⟩ := find_product_id hfind
    obtain ⟨h1, h2, h3⟩ := updatedProduct_fields p r
    have hwritten : updatedProduct p r
        = { ID := p.ID,
            SKUName := if r.SKUName ≠ "" then r.SKUName else p.SKUName,
            Quantity := if r.Quantity ≥ 0 then r.Quantity else p.Quantity } := by
      cases hu : updatedProduct p r
      rw [hu] at h1 h2 h3
      simp only at h1 h2 h3
      rw [h1, h2, h3]
    have hany : s.products.any (fun x => decide (x.ID = (updatedProduct p r).ID)) = true := by
      rw [h1, List.any_eq_true]
      exact ⟨p, hmem, by simp⟩
    have hexec : UpdateProductCommand.Execute getFault updateFault s id r
        = { resp := some { ID := (updatedProduct p r).ID,
                           SKUName := (updatedProduct p r).SKUName,
                           Quantity := (updatedProduct p r).Quantity },
            err := none, store := s.withProduct (updatedProduct p r) } := by
      simp [UpdateProductCommand.Execute, hp, hup, ProductRepository.Update, hany,
        Store.withProduct]
    refine ⟨by rw [hexec], ?_, ?_, ?_, ?_⟩
    · rw [hexec]
      simp only [Store.withProduct]
      rw [find_map_update, hfind, ← hwritten]
      simp [h1]
    · rw [hexec, hwritten]
    · intro h0
      split <;> omega
    · intro hz
      simp [hz]
  · intro habs
    have hfind : s.products.find? (fun p => decide (p.ID = id)) = none := by
      rw [List.find?_eq_none]
      intro p hp
      simpa using habs p hp
    have hget : ∃ e, ProductRepository.GetByID getFault s id = .error e := by
      unfold ProductRepository.GetByID
      cases getFault with
      | some c => exact ⟨_, rfl⟩
      | none => exact ⟨ErrProductNotFound, by simp only [hfind]⟩
    obtain ⟨e, he⟩ := hget
    simp [UpdateProductCommand.Execute, he]

/-- Witness for C29: product 1 (SKU-001, quantity 100) updated with an empty SKU name
and quantity 0 keeps its name and holds 0. -/
theorem updateProduct_spec_witness :
    (UpdateProductCommand.Execute none none exStore 1
        { SKUName := "", Quantity := 0 }).store.products.find? (fun x => decide (x.ID = 1))
      = some { ID := 1, SKUName := "SKU-001", Quantity := 0 } :=
  ((updateProduct_spec none none exStore 1 { SKUName := "", Quantity := 0 }).1
    { ID := 1, SKUName := "SKU-001", Quantity := 100 } rfl rfl).2.1

theorem productCall_keeps_keys (s : Store) (c : ProductCall)
    (hinv : ProductsKeyed s) (hdb : c.schemaEnforced s) : ProductsKeyed (c.run s) := by
  cases c with
  | create fault newID req =>
    simp only [ProductCall.run, CreateProductCommand.Execute]
    cases hn : NewProduct req.SKUName req.Quantity with
    | error e => exact hinv
    | ok prod =>
      have hsku : prod.SKUName = req.SKUName := by
        unfold NewProduct at hn
        split at hn
        · simp at hn
        · split at hn
          · simp at hn
          · simp at hn; rw [← hn]
      cases fault with
      | some cause => exact hinv
      | none =>
        have hfree : ∀ x ∈ s.products, x.ID ≠ newID ∧ x.SKUName ≠ req.SKUName := by
          intro x hx
          by_contra hcon
          have hany : s.products.any
              (fun x => decide (x.ID = newID ∨ x.SKUName = req.SKUName)) = true := by
            rw [List.any_eq_true]
            refine ⟨x, hx, ?_⟩
            simp only [decide_eq_true_eq]
            by_cases h1 : x.ID = newID
            · exact Or.inl h1
            · by_cases h2 : x.SKUName = req.SKUName
              · exact Or.inr h2
              · exact absurd ⟨h1, h2⟩ hcon
          have := hdb hany
          simp at this
        simp only [ProductRepository.Create, ProductsKeyed]
        rw [List.pairwise_append]
        refine ⟨hinv, List.pairwise_singleton _ _, ?_⟩
        intro a ha b hb
        rw [List.mem_singleton] at hb
        subst hb
        have := hfree a ha
        exact ⟨this.1, by rw [hsku]; exact this.2⟩
  | update getFault updateFault id req =>
    show ProductsKeyed (UpdateProductCommand.Execute getFault updateFault s id req).store
    cases hg : ProductRepository.GetByID getFault s id with
    | error e =>
      have hst : (UpdateProductCommand.Execute getFault updateFault s id req).store = s := by
        simp [UpdateProductCommand.Execute, hg]
      rw [hst]; exact hinv
    | ok prod =>
      obtain ⟨_, hfind⟩ := productGetByID_ok hg
      obtain ⟨hid, hmem⟩ := find_product_id hfind
      have hwid : (updatedProduct prod req).ID = id :=
        (updatedProduct_fields prod req).1.trans hid
      cases updateFault with
      | some cause =>
        have hst : (UpdateProductCommand.Execute getFault (some cause) s id req).store = s := by
          simp [UpdateProductCommand.Execute, hg, ProductRepository.Update]
        rw [hst]; exact hinv
      | none =>
        have hany : s.products.any
            (fun x => decide (x.ID = (updatedProduct prod req).ID)) = true := by
          rw [hwid, List.any_eq_true]
          exact ⟨prod, hmem, by simp [hid]⟩
        have hst : (UpdateProductCommand.Execute getFault none s id req).store
            = s.withProduct (updatedProduct prod req) := by
          simp [UpdateProductCommand.Execute, hg, ProductRepository.Update, hany,
            Store.withProduct]
        have hfree : ∀ x ∈ s.products, x.ID ≠ id →
            x.SKUName ≠ (updatedProduct prod req).SKUName := by
          intro x hx hne heq
          have hany2 : s.products.any
              (fun x => decide (x.ID ≠ id ∧ x.SKUName = (updatedProduct prod req).SKUName))
              = true := by
            rw [List.any_eq_true]
            exact ⟨x, hx, by simp [hne, heq]⟩
          simp only [ProductCall.schemaEnforced, hfind, updateEnforcedFor] at hdb
          have := hdb hany2
          simp at this
        rw [hst]
        simp only [ProductsKeyed, Store.withProduct]
        rw [List.pairwise_map]
        refine List.Pairwise.imp_of_mem ?_ hinv
        intro a b ha hb hab
        rw [hwid]
        by_cases h1 : a.ID = id <;> by_cases h2 : b.ID = id
        · exact absurd (h1.trans h2.symm) hab.1
        · rw [if_pos h1, if_neg h2]
          exact ⟨by rw [hwid]; exact fun h => h2 h.symm, (hfree b hb h2).symm⟩
        · rw [if_neg h1, if_pos h2]
          exact ⟨by rw [hwid]; exact h1, hfree a ha h1⟩
        · rw [if_neg h1, if_neg h2]
          exact hab

/-- The product rows after the calls of the example. -/
theorem exProductCalls_result :
    (runProductCalls emptyStore exProductCalls).products
      = [{ ID := 1, SKUName := "SKU-001", Quantity := 100 },
         { ID := 3, SKUName := "SKU-003", Quantity := 7 }] := by
  rfl

/-! ## Two OUT requests one after the other -/

/-- Scenario 6 of the specification with the two requests run one after the other:
quantity 100, two OUT requests of 60; the first is accepted, the second is refused with
the insufficient-stock error of the recorder, and the stored quantity is 40. -/
theorem scenario_two_outs_in_sequence :
    (RecordStockMovementCommand.Execute (Env.calm 5 6) exStore (exReq "OUT" 60)).err = none ∧
    (RecordStockMovementCommand.Execute (Env.calm 7 8)
        (RecordStockMovementCommand.Execute (Env.calm 5 6) exStore (exReq "OUT" 60)).store
        (exReq "OUT" 60)).err
      = some (.new "insufficient stock for outbound movement") ∧
    (RecordStockMovementCommand.Execute (Env.calm 7 8)
        (RecordStockMovementCommand.Execute (Env.calm 5 6) exStore (exReq "OUT" 60)).store
        (exReq "OUT" 60)).store.products
      = [{ ID := 1, SKUName := "SKU-001", Quantity := 40 }] := by
  refine ⟨rfl, rfl, rfl⟩

/-! ## Two concurrent OUT requests (C24) -/

theorem execute_eq_writeBack (env : Env) (s : Store) (req : RecordStockMovementRequest) :
    RecordStockMovementCommand.Execute env s req
      = match NewStockMovement req.ProductID req.LocationID req.Type_ req.Quantity env.now with
        | .error err => { resp := none, err := some err, store := s }
        | .ok movement =>
          match (Service.RecordMovement env s movement).err with
          | some err =>
            { resp := none, err := some err, store := (Service.RecordMovement env s movement).store }
          | none =>
            RecordStockMovementCommand.writeBack env req
              (Service.RecordMovement env s movement).store
              (Service.RecordMovement env s movement).movement := rfl

theorem runAlone_done (env : Env) (req : RecordStockMovementRequest) (n : Nat)
    (resp : Option StockMovementResponse) (err : Option Error) (s : Store) :
    Phase.runAlone env req n (.done resp err, s) = (.done resp err, s) := by
  induction n with
  | zero => rfl
  | succ n ih => simpa [Phase.runAlone, Phase.step] using ih

theorem runAlone_inserted (env : Env) (req : RecordStockMovementRequest) (n : Nat)
    (s : Store) (m : StockMovement) :
    Phase.runAlone env req (n + 2) (.inserted m, s)
      = (.done (RecordStockMovementCommand.writeBack env req s m).resp
            (RecordStockMovementCommand.writeBack env req s m).err,
          (RecordStockMovementCommand.writeBack env req s m).store) := by
  simp only [Phase.runAlone, Phase.step, RecordStockMovementCommand.writeBack]
  cases ProductRepository.GetByID env.productReload s req.ProductID with
  | error e => simp only [runAlone_done]
  | ok prod =>
    simp only []
    cases h1 : (if m.IsInbound then prod.IncreaseStock req.Quantity
        else prod.DecreaseStock req.Quantity).1 with
    | some e => simp only [Phase.step, runAlone_done]
    | none =>
      simp only [Phase.step]
      cases h2 : (ProductRepository.Update env.productUpdate s
          (if m.IsInbound then prod.IncreaseStock req.Quantity
            else prod.DecreaseStock req.Quantity).2).1 with
      | some e => simp only [runAlone_done]
      | none => simp only [runAlone_done]

theorem runAlone_create (env : Env) (req : RecordStockMovementRequest) (n : Nat)
    (s : Store) (m : StockMovement) :
    Phase.runAlone env req (n + 2) (Phase.create env s m)
      = match (StockRepository.Create env.stockCreate env.dbNow s m).err with
        | some err =>
          (.done none (some err), (StockRepository.Create env.stockCreate env.dbNow s m).store)
        | none =>
          (.done
              (RecordStockMovementCommand.writeBack env req
                (StockRepository.Create env.stockCreate env.dbNow s m).store
                (StockRepository.Create env.stockCreate env.dbNow s m).movement).resp
              (RecordStockMovementCommand.writeBack env req
                (StockRepository.Create env.stockCreate env.dbNow s m).store
                (StockRepository.Create env.stockCreate env.dbNow s m).movement).err,
            (RecordStockMovementCommand.writeBack env req
              (StockRepository.Create env.stockCreate env.dbNow s m).store
              (StockRepository.Create env.stockCreate env.dbNow s m).movement).store) := by
  cases h : (StockRepository.Create env.stockCreate env.dbNow s m).err with
  | some e => simp only [Phase.create, h, runAlone_done]
  | none => simp only [Phase.create, h, runAlone_inserted]

/-- The steps are the steps of `Execute`: a call that makes its port calls one after
the other without another call in between ends with the response, the error and the
stores of `Execute`. -/
theorem runAlone_eq_execute (env : Env) (s : Store) (req : RecordStockMovementRequest) :
    Phase.runAlone env req 6 (.start, s)
      = (.done (RecordStockMovementCommand.Execute env s req).resp
            (RecordStockMovementCommand.Execute env s req).err,
          (RecordStockMovementCommand.Execute env s req).store) := by
  rw [execute_eq_writeBack]
  cases hn : NewStockMovement req.ProductID req.LocationID req.Type_ req.Quantity env.now with
  | error e =>
    have h1 : Phase.step env req s .start = (.done none (some e), s) := by
      simp only [Phase.step, hn]
    show Phase.runAlone env req 5 (Phase.step env req s .start) = _
    rw [h1, runAlone_done]
  | ok m =>
    show Phase.runAlone env req 5 (Phase.step env req s .start) = _
    cases hp : ProductRepository.GetByID env.productGet s m.ProductID with
    | error e =>
      have h1 : Phase.step env req s .start
          = (.done none (some (.new "product not found")), s) := by
        simp only [Phase.step, hn, hp]
      rw [h1, runAlone_done]
      simp [Service.RecordMovement, hp]
    | ok prod =>
      have h1 : Phase.step env req s .start = (.gotProduct m prod, s) := by
        simp only [Phase.step, hn, hp]
      rw [h1]
      show Phase.runAlone env req 4 (Phase.step env req s (.gotProduct m prod)) = _
      cases hl : LocationRepository.GetByID env.locationGet s m.LocationID with
      | error e =>
        have h2 : Phase.step env req s (.gotProduct m prod)
            = (.done none (some (.new "location not found")), s) := by
          simp only [Phase.step, hl]
        rw [h2, runAlone_done]
        simp [Service.RecordMovement, hp, hl]
      | ok loc =>
        have h2 : Phase.step env req s (.gotProduct m prod) = (.gotLocation m prod loc, s) := by
          simp only [Phase.step, hl]
        rw [h2]
        show Phase.runAlone env req 3 (Phase.step env req s (.gotLocation m prod loc)) = _
        cases ho : m.IsOutbound with
        | true =>
          by_cases hlt : prod.Quantity < m.Quantity
          · have h3 : Phase.step env req s (.gotLocation m prod loc)
                = (.done none (some (.new "insufficient stock for outbound movement")), s) := by
              simp only [Phase.step, ho, hlt, if_true]
            rw [h3, runAlone_done]
            simp [Service.RecordMovement, hp, hl, ho, hlt]
          · have h3 : Phase.step env req s (.gotLocation m prod loc)
                = Phase.create env s m := by
              simp only [Phase.step, ho, hlt, if_true, if_false]
            have hr : Service.RecordMovement env s m
                = StockRepository.Create env.stockCreate env.dbNow s m := by
              simp [Service.RecordMovement, hp, hl, ho, hlt]
            rw [h3, runAlone_create env req 1]
            simp only [hr]
            cases (StockRepository.Create env.stockCreate env.dbNow s m).err <;> rfl
        | false =>
          cases hi : m.IsInbound with
          | true =>
            cases hg : Service.getLocationStock env.stockGetByLocation s m.LocationID with
            | error e =>
              have h3 : Phase.step env req s (.gotLocation m prod loc)
                  = (.done none (some e), s) := by
                simp [Phase.step, ho, hi, hg]
              rw [h3, runAlone_done]
              simp [Service.RecordMovement, hp, hl, ho, hi, hg]
            | ok cur =>
              cases hc : loc.CanAccommodate cur m.Quantity with
              | false =>
                have h3 : Phase.step env req s (.gotLocation m prod loc)
                    = (.done none (some (.new "location capacity exceeded")), s) := by
                  simp [Phase.step, ho, hi, hg, hc]
                rw [h3, runAlone_done]
                simp [Service.RecordMovement, hp, hl, ho, hi, hg, hc]
              | true =>
                have h3 : Phase.step env req s (.gotLocation m prod loc)
                    = (.admitted m, s) := by
                  simp [Phase.step, ho, hi, hg, hc]
                have hr : Service.RecordMovement env s m
                    = StockRepository.Create env.stockCreate env.dbNow s m := by
                  simp [Service.RecordMovement, hp, hl, ho, hi, hg, hc]
                rw [h3]
                show Phase.runAlone env req 2 (Phase.create env s m) = _
                rw [runAlone_create env req 0]
                simp only [hr]
                cases (StockRepository.Create env.stockCreate env.dbNow s m).err <;> rfl
          | false =>
            have h3 : Phase.step env req s (.gotLocation m prod loc)
                = Phase.create env s m := by
              simp [Phase.step, ho, hi]
            have hr : Service.RecordMovement env s m
                = StockRepository.Create env.stockCreate env.dbNow s m := by
              simp [Service.RecordMovement, hp, hl, ho, hi]
            rw [h3, runAlone_create env req 1]
            simp only [hr]
            cases (StockRepository.Create env.stockCreate env.dbNow s m).err <;> rfl

/-! ### The invariant of the two calls -/

theorem out_ne_in : ¬ MovementTypeOUT = MovementTypeIN := by decide

theorem step_start (now dbNow : Nat) (s : Store) (productID locationID : Int) (p : Product)
    (hpid : 0 < productID) (hlid : 0 < locationID)
    (hp : s.products.find? (fun x => decide (x.ID = productID)) = some p) :
    Phase.step (Env.calm now dbNow) (outReq productID locationID) s .start
      = (.gotProduct (candidateOf (outReq productID locationID) now) p, s) := by
  have h1 : ¬ productID ≤ 0 := by omega
  have h2 : ¬ locationID ≤ 0 := by omega
  simp [Phase.step, NewStockMovement, outReq, Env.calm, ProductRepository.GetByID, h1, h2, hp,
    candidateOf, out_ne_in]

theorem step_gotProduct (now dbNow : Nat) (s : Store) (req : RecordStockMovementRequest)
    (m : StockMovement) (prod : Product) (loc : Location)
    (hl : s.locations.find? (fun l => decide (l.ID = m.LocationID)) = some loc) :
    Phase.step (Env.calm now dbNow) req s (.gotProduct m prod)
      = (.gotLocation m prod loc, s) := by
  simp [Phase.step, Env.calm, LocationRepository.GetByID, hl]

theorem step_gotLocation_enough (now dbNow : Nat) (s : Store)
    (req : RecordStockMovementRequest) (m : StockMovement) (prod : Product) (loc : Location)
    (ht : m.Type_ = MovementTypeOUT) (hq : m.Quantity ≤ prod.Quantity) :
    Phase.step (Env.calm now dbNow) req s (.gotLocation m prod loc)
      = (.inserted { m with ID := s.stockSeq + 1 }, s.withRow dbNow m) := by
  have h : ¬ prod.Quantity < m.Quantity := by omega
  simp [Phase.step, Phase.create, Env.calm, StockMovement.IsOutbound, ht, h,
    StockRepository.Create, Store.withRow, Store.rowFor]

theorem step_gotLocation_short (env : Env) (s : Store)
    (req : RecordStockMovementRequest) (m : StockMovement) (prod : Product) (loc : Location)
    (ht : m.Type_ = MovementTypeOUT) (hq : prod.Quantity < m.Quantity) :
    Phase.step env req s (.gotLocation m prod loc)
      = (.done none (some (.new "insufficient stock for outbound movement")), s) := by
  simp [Phase.step, StockMovement.IsOutbound, ht, hq]

theorem step_inserted_enough (now dbNow : Nat) (s : Store) (productID locationID : Int)
    (m : StockMovement) (p : Product)
    (hp : s.products.find? (fun x => decide (x.ID = productID)) = some p)
    (ht : m.Type_ = MovementTypeOUT) (hq : p.Quantity = 100) :
    Phase.step (Env.calm now dbNow) (outReq productID locationID) s (.inserted m)
      = (.stepped m { p with Quantity := 40 }, s) := by
  have hw : wrap64 40 = 40 := by decide
  simp [Phase.step, Env.calm, outReq, ProductRepository.GetByID, hp, StockMovement.IsInbound,
    ht, out_ne_in, Product.DecreaseStock, hq, hw]

theorem step_inserted_short (now dbNow : Nat) (s : Store) (productID locationID : Int)
    (m : StockMovement) (p : Product)
    (hp : s.products.find? (fun x => decide (x.ID = productID)) = some p)
    (ht : m.Type_ = MovementTypeOUT) (hq : p.Quantity = 40) :
    Phase.step (Env.calm now dbNow) (outReq productID locationID) s (.inserted m)
      = (.done none (some (.new "insufficient stock")), s) := by
  simp [Phase.step, Env.calm, outReq, ProductRepository.GetByID, hp, StockMovement.IsInbound,
    ht, out_ne_in, Product.DecreaseStock, hq]

theorem step_stepped (now dbNow : Nat) (s : Store) (req : RecordStockMovementRequest)
    (m : StockMovement) (prod p : Product)
    (hp : s.products.find? (fun x => decide (x.ID = prod.ID)) = some p) :
    Phase.step (Env.calm now dbNow) req s (.stepped m prod)
      = (.done (some { ID := m.ID, ProductID := m.ProductID, LocationID := m.LocationID,
                       Type_ := m.Type_, Quantity := m.Quantity, CreatedAt := m.CreatedAt })
          none, s.withProduct prod) := by
  have hany : s.products.any (fun x => decide (x.ID = prod.ID)) = true := by
    rw [List.any_eq_true]
    exact ⟨p, (find_product_id hp).2, by simpa using (find_product_id hp).1⟩
  simp [Phase.step, Env.calm, ProductRepository.Update, hany, Store.withProduct]

theorem find_withProduct (s : Store) (prod p : Product)
    (hp : s.products.find? (fun x => decide (x.ID = prod.ID)) = some p) :
    (s.withProduct prod).products.find? (fun x => decide (x.ID = prod.ID)) = some prod := by
  simp only [Store.withProduct]
  rw [find_map_update, hp]
  simp [(find_product_id hp).1]

theorem outPhaseOK_mono (productID locationID : Int) (a b : Bool) (ph : Phase)
    (hab : a = true → b = true) (h : OutPhaseOK productID locationID a ph) :
    OutPhaseOK productID locationID b ph := by
  cases ph with
  | start => trivial
  | gotProduct m prod =>
    obtain ⟨h1, h2, h3, h4⟩ := h
    exact ⟨h1, h2, h3, h4.imp id (fun h => ⟨h.1, hab h.2⟩)⟩
  | gotLocation m prod loc =>
    obtain ⟨h1, h2, h4⟩ := h
    exact ⟨h1, h2, h4.imp id (fun h => ⟨h.1, hab h.2⟩)⟩
  | admitted m => exact h
  | inserted m => exact h
  | stepped m prod => exact h
  | done resp err => exact h.imp id (fun h => ⟨hab h.1, h.2⟩)

theorem outStoreOK_swap (productID : Int) (s : Store) (a b : Bool)
    (h : OutStoreOK productID s a b) : OutStoreOK productID s b a := by
  obtain ⟨p, hp, hc⟩ := h
  refine ⟨p, hp, ?_⟩
  rcases hc with ⟨h1, h2, h3⟩ | ⟨h1, h2⟩
  · exact Or.inl ⟨h1, h3, h2⟩
  · exact Or.inr ⟨h1, h2.symm⟩

/-- One port call of a call of the contest keeps what the stores and the call hold, and
leaves the location table as it was. -/
theorem phase_step_ok (now dbNow : Nat) (s : Store) (productID locationID : Int)
    (ph : Phase) (other : Bool) (hpid : 0 < productID) (hlid : 0 < locationID)
    (hs : OutStoreOK productID s ph.succeeded other)
    (hloc : HasLocation s locationID)
    (hph : OutPhaseOK productID locationID other ph) :
    OutStoreOK productID
        (Phase.step (Env.calm now dbNow) (outReq productID locationID) s ph).2
        (Phase.step (Env.calm now dbNow) (outReq productID locationID) s ph).1.succeeded other ∧
      OutPhaseOK productID locationID other
        (Phase.step (Env.calm now dbNow) (outReq productID locationID) s ph).1 ∧
      (ph.succeeded = true →
        (Phase.step (Env.calm now dbNow) (outReq productID locationID) s ph).1.succeeded
          = true) ∧
      (Phase.step (Env.calm now dbNow) (outReq productID locationID) s ph).2.locations
        = s.locations := by
  obtain ⟨p, hp, hc⟩ := hs
  obtain ⟨loc, hl⟩ := hloc
  cases ph with
  | start =>
    rw [step_start now dbNow s productID locationID p hpid hlid hp]
    refine ⟨⟨p, hp, hc⟩, ⟨rfl, rfl, rfl, ?_⟩, fun h => h, rfl⟩
    rcases hc with ⟨h1, _, _⟩ | ⟨h1, h2⟩
    · exact Or.inl h1
    · rcases h2 with h2 | h2
      · exact absurd h2 (by decide)
      · exact Or.inr ⟨h1, h2⟩
  | gotProduct m prod =>
    obtain ⟨h1, h2, h3, h4⟩ := hph
    rw [step_gotProduct now dbNow s _ m prod loc (by rw [h3]; exact hl)]
    exact ⟨⟨p, hp, hc⟩, ⟨h1, h2, h4⟩, fun h => h, rfl⟩
  | gotLocation m prod loc1 =>
    obtain ⟨h1, h2, h4⟩ := hph
    rcases h4 with h4 | ⟨h4, h5⟩
    · rw [step_gotLocation_enough now dbNow s _ m prod loc1 h1 (by rw [h2, h4]; decide)]
      exact ⟨⟨p, hp, hc⟩, h1, fun h => h, rfl⟩
    · rw [step_gotLocation_short _ s _ m prod loc1 h1 (by rw [h2, h4]; decide)]
      exact ⟨⟨p, hp, hc⟩, Or.inr ⟨h5, Or.inl rfl⟩, fun h => h, rfl⟩
  | admitted m => exact absurd hph id
  | inserted m =>
    rcases hc with ⟨h1, h2, h3⟩ | ⟨h1, h2⟩
    · rw [step_inserted_enough now dbNow s productID locationID m p hp hph h1]
      exact ⟨⟨p, hp, Or.inl ⟨h1, h2, h3⟩⟩, ⟨(find_product_id hp).1, rfl⟩, fun h => h, rfl⟩
    · rw [step_inserted_short now dbNow s productID locationID m p hp hph h1]
      have ho : other = true := by
        rcases h2 with h2 | h2
        · exact Bool.noConfusion (h2 : false = true)
        · exact h2
      exact ⟨⟨p, hp, Or.inr ⟨h1, Or.inr ho⟩⟩, Or.inr ⟨ho, Or.inr rfl⟩, fun h => h, rfl⟩
  | stepped m prod =>
    obtain ⟨h1, h2⟩ := hph
    have hp1 : s.products.find? (fun x => decide (x.ID = prod.ID)) = some p := by
      rw [h1]; exact hp
    rw [step_stepped now dbNow s _ m prod p hp1]
    refine ⟨⟨prod, ?_, Or.inr ⟨h2, Or.inl rfl⟩⟩, Or.inl rfl, fun _ => rfl, rfl⟩
    have := find_withProduct s prod p hp1
    rw [h1] at this
    exact this
  | done resp err =>
    exact ⟨⟨p, hp, hc⟩, hph, fun h => h, rfl⟩

/-- One step of the contest keeps the invariant. -/
theorem race_step_ok (productID locationID1 locationID2 : Int) (now1 dbNow1 now2 dbNow2 : Nat)
    (hpid : 0 < productID) (hlid1 : 0 < locationID1) (hlid2 : 0 < locationID2)
    (r : Race) (turn : Bool)
    (h : OutRaceOK productID locationID1 locationID2 r) :
    OutRaceOK productID locationID1 locationID2
      (Race.step (outContest productID locationID1 locationID2 now1 dbNow1 now2 dbNow2)
        r turn) := by
  obtain ⟨hs, hl1, hl2, h1, h2⟩ := h
  cases turn with
  | true =>
    obtain ⟨hs1, hp1, hmono, hlocs⟩ :=
      phase_step_ok now1 dbNow1 r.store productID locationID1 r.first r.second.succeeded
        hpid hlid1 hs hl1 h1
    have hl : (Race.step (outContest productID locationID1 locationID2 now1 dbNow1 now2 dbNow2)
        r true).store.locations = r.store.locations := hlocs
    refine ⟨hs1, ?_, ?_, hp1, outPhaseOK_mono _ _ _ _ _ hmono h2⟩
    · unfold HasLocation; rw [hl]; exact hl1
    · unfold HasLocation; rw [hl]; exact hl2
  | false =>
    obtain ⟨hs1, hp1, hmono, hlocs⟩ :=
      phase_step_ok now2 dbNow2 r.store productID locationID2 r.second r.first.succeeded
        hpid hlid2 (outStoreOK_swap _ _ _ _ hs) hl2 h2
    have hl : (Race.step (outContest productID locationID1 locationID2 now1 dbNow1 now2 dbNow2)
        r false).store.locations = r.store.locations := hlocs
    refine ⟨outStoreOK_swap _ _ _ _ hs1, ?_, ?_, outPhaseOK_mono _ _ _ _ _ hmono h1, hp1⟩
    · unfold HasLocation; rw [hl]; exact hl1
    · unfold HasLocation; rw [hl]; exact hl2

/-- Every interleaving keeps the invariant. -/
theorem race_run_ok (productID locationID1 locationID2 : Int) (now1 dbNow1 now2 dbNow2 : Nat)
    (hpid : 0 < productID) (hlid1 : 0 < locationID1) (hlid2 : 0 < locationID2)
    (turns : List Bool) (r : Race)
    (h : OutRaceOK productID locationID1 locationID2 r) :
    OutRaceOK productID locationID1 locationID2
      (Race.run (outContest productID locationID1 locationID2 now1 dbNow1 now2 dbNow2)
        r turns) := by
  induction turns generalizing r with
  | nil => exact h
  | cons t ts ih =>
    exact ih _ (race_step_ok productID locationID1 locationID2 now1 dbNow1 now2 dbNow2
      hpid hlid1 hlid2 r t h)

theorem race_step_first (k : Contest) (r : Race) (ph : Phase) (s : Store)
    (h : Phase.step k.env1 k.req1 r.store r.first = (ph, s)) :
    Race.step k r true = { first := ph, second := r.second, store := s } := by
  simp only [Race.step, if_true, h]

theorem race_step_second (k : Contest) (r : Race) (ph : Phase) (s : Store)
    (h : Phase.step k.env2 k.req2 r.store r.second = (ph, s)) :
    Race.step k r false = { first := r.first, second := ph, store := s } := by
  simp only [Race.step, Bool.false_eq_true, if_false, h]

/-- The interleaving `exTurns`, step by step, on any stores that hold the product with
quantity 100 and the locations: both calls pass the recorder, both reload quantity 100,
both write 40, both succeed. -/
theorem race_lost_update (s : Store) (productID locationID1 locationID2 : Int)
    (p0 : Product) (loc1 loc2 : Location) (now1 dbNow1 now2 dbNow2 : Nat)
    (hpid : 0 < productID) (hlid1 : 0 < locationID1) (hlid2 : 0 < locationID2)
    (hprod : s.products.find? (fun x => decide (x.ID = productID)) = some p0)
    (hqty : p0.Quantity = 100)
    (hloc1 : s.locations.find? (fun l => decide (l.ID = locationID1)) = some loc1)
    (hloc2 : s.locations.find? (fun l => decide (l.ID = locationID2)) = some loc2) :
    Race.run (outContest productID locationID1 locationID2 now1 dbNow1 now2 dbNow2)
        (Race.init s) exTurns
      = { first := .done (some { ID := s.stockSeq + 1, ProductID := productID,
                                 LocationID := locationID1, Type_ := MovementTypeOUT,
                                 Quantity := 60, CreatedAt := now1 }) none,
          second := .done (some { ID := s.stockSeq + 1 + 1, ProductID := productID,
                                  LocationID := locationID2, Type_ := MovementTypeOUT,
                                  Quantity := 60, CreatedAt := now2 }) none,
          store :=
            ((((s.withRow dbNow1 (candidateOf (outReq productID locationID1) now1)).withRow
                dbNow2 (candidateOf (outReq productID locationID2) now2)).withProduct
              { p0 with Quantity := 40 }).withProduct { p0 with Quantity := 40 }) } := by
  have hid : p0.ID = productID := (find_product_id hprod).1
  have e1 := race_step_first
    (outContest productID locationID1 locationID2 now1 dbNow1 now2 dbNow2)
    (Race.init s) _ _ (step_start now1 dbNow1 s productID locationID1 p0 hpid hlid1 hprod)
  have e2 := race_step_first
    (outContest productID locationID1 locationID2 now1 dbNow1 now2 dbNow2)
    { first := .gotProduct (candidateOf (outReq productID locationID1) now1) p0,
      second := .start, store := s } _ _
    (step_gotProduct now1 dbNow1 s (outReq productID locationID1)
      (candidateOf (outReq productID locationID1) now1) p0 loc1 hloc1)
  have e3 := race_step_first
    (outContest productID locationID1 locationID2 now1 dbNow1 now2 dbNow2)
    { first := .gotLocation (candidateOf (outReq productID locationID1) now1) p0 loc1,
      second := .start, store := s } _ _
    (step_gotLocation_enough now1 dbNow1 s (outReq productID locationID1)
      (candidateOf (outReq productID locationID1) now1) p0 loc1 rfl
      (by rw [hqty]; show (60 : Int) ≤ 100; decide))
  have e4 := race_step_second
    (outContest productID locationID1 locationID2 now1 dbNow1 now2 dbNow2)
    { first := .inserted
        { candidateOf (outReq productID locationID1) now1 with
          ID := s.stockSeq + 1 },
      second := .start,
      store := (s.withRow dbNow1 (candidateOf (outReq productID locationID1) now1)) } _ _
    (step_start now2 dbNow2
      (s.withRow dbNow1 (candidateOf (outReq productID locationID1) now1))
      productID locationID2 p0 hpid hlid2 hprod)
  have e5 := race_step_second
    (outContest productID locationID1 locationID2 now1 dbNow1 now2 dbNow2)
    { first := .inserted
        { candidateOf (outReq productID locationID1) now1 with
          ID := s.stockSeq + 1 },
      second := .gotProduct (candidateOf (outReq productID locationID2) now2) p0,
      store := (s.withRow dbNow1 (candidateOf (outReq productID locationID1) now1)) } _ _
    (step_gotProduct now2 dbNow2
      (s.withRow dbNow1 (candidateOf (outReq productID locationID1) now1))
      (outReq productID locationID2)
      (candidateOf (outReq productID locationID2) now2) p0 loc2 hloc2)
  have e6 := race_step_second
    (outContest productID locationID1 locationID2 now1 dbNow1 now2 dbNow2)
    { first := .inserted
        { candidateOf (outReq productID locationID1) now1 with
          ID := s.stockSeq + 1 },
      second := .gotLocation (candidateOf (outReq productID locationID2) now2) p0 loc2,
      store := (s.withRow dbNow1 (candidateOf (outReq productID locationID1) now1)) } _ _
    (step_gotLocation_enough now2 dbNow2
      (s.withRow dbNow1 (candidateOf (outReq productID locationID1) now1))
      (outReq productID locationID2)
      (candidateOf (outReq productID locationID2) now2) p0 loc2 rfl
      (by rw [hqty]; show (60 : Int) ≤ 100; decide))
  have e7 := race_step_first
    (outContest productID locationID1 locationID2 now1 dbNow1 now2 dbNow2)
    { first := .inserted
        { candidateOf (outReq productID locationID1) now1 with
          ID := s.stockSeq + 1 },
      second := .inserted
        { candidateOf (outReq productID locationID2) now2 with
          ID := (s.withRow dbNow1 (candidateOf (outReq productID locationID1) now1)).stockSeq + 1 },
      store := ((s.withRow dbNow1 (candidateOf (outReq productID locationID1) now1)).withRow dbNow2
        (candidateOf (outReq productID locationID2) now2)) } _ _
    (step_inserted_enough now1 dbNow1
      ((s.withRow dbNow1 (candidateOf (outReq productID locationID1) now1)).withRow dbNow2
        (candidateOf (outReq productID locationID2) now2))
      productID locationID1 _ p0 hprod rfl hqty)
  have e8 := race_step_second
    (outContest productID locationID1 locationID2 now1 dbNow1 now2 dbNow2)
    { first := .stepped
        { candidateOf (outReq productID locationID1) now1 with
          ID := s.stockSeq + 1 }
        { p0 with Quantity := 40 },
      second := .inserted
        { candidateOf (outReq productID locationID2) now2 with
          ID := (s.withRow dbNow1 (candidateOf (outReq productID locationID1) now1)).stockSeq + 1 },
      store := ((s.withRow dbNow1 (candidateOf (outReq productID locationID1) now1)).withRow dbNow2
        (candidateOf (outReq productID locationID2) now2)) } _ _
    (step_inserted_enough now2 dbNow2
      ((s.withRow dbNow1 (candidateOf (outReq productID locationID1) now1)).withRow dbNow2
        (candidateOf (outReq productID locationID2) now2))
      productID locationID2 _ p0 hprod rfl hqty)
  have hprod1 : ((s.withRow dbNow1 (candidateOf (outReq productID locationID1) now1)).withRow dbNow2
        (candidateOf (outReq productID locationID2) now2)).products.find?
      (fun x => decide (x.ID = ({ p0 with Quantity := 40 } : Product).ID)) = some p0 := by
    rw [show ({ p0 with Quantity := 40 } : Product).ID = productID from hid]
    exact hprod
  have e9 := race_step_first
    (outContest productID locationID1 locationID2 now1 dbNow1 now2 dbNow2)
    { first := .stepped
        { candidateOf (outReq productID locationID1) now1 with
          ID := s.stockSeq + 1 }
        { p0 with Quantity := 40 },
      second := .stepped
        { candidateOf (outReq productID locationID2) now2 with
          ID := (s.withRow dbNow1 (candidateOf (outReq productID locationID1) now1)).stockSeq + 1 }
        { p0 with Quantity := 40 },
      store := ((s.withRow dbNow1 (candidateOf (outReq productID locationID1) now1)).withRow dbNow2
        (candidateOf (outReq productID locationID2) now2)) } _ _
    (step_stepped now1 dbNow1 _ (outReq productID locationID1) _ { p0 with Quantity := 40 } p0 hprod1)
  have e10 := race_step_second
    (outContest productID locationID1 locationID2 now1 dbNow1 now2 dbNow2)
    { first := .done (some
          { ID := ({ candidateOf (outReq productID locationID1) now1 with
          ID := s.stockSeq + 1 } : StockMovement).ID,
            ProductID := (candidateOf (outReq productID locationID1) now1).ProductID,
            LocationID := (candidateOf (outReq productID locationID1) now1).LocationID,
            Type_ := (candidateOf (outReq productID locationID1) now1).Type_,
            Quantity := (candidateOf (outReq productID locationID1) now1).Quantity,
            CreatedAt := (candidateOf (outReq productID locationID1) now1).CreatedAt }) none,
      second := .stepped
        { candidateOf (outReq productID locationID2) now2 with
          ID := (s.withRow dbNow1 (candidateOf (outReq productID locationID1) now1)).stockSeq + 1 }
        { p0 with Quantity := 40 },
      store := ((s.withRow dbNow1 (candidateOf (outReq productID locationID1) now1)).withRow dbNow2
        (candidateOf (outReq productID locationID2) now2)).withProduct
        { p0 with Quantity := 40 } } _ _
    (step_stepped now2 dbNow2 _ (outReq productID locationID2) _ { p0 with Quantity := 40 }
      { p0 with Quantity := 40 } (find_withProduct _ _ p0 hprod1))
  have e : Race.run (outContest productID locationID1 locationID2 now1 dbNow1 now2 dbNow2)
      (Race.init s) exTurns = _ :=
    (congrArg (fun r => Race.step _ r false)
      ((congrArg (fun r => Race.step _ r true)
        ((congrArg (fun r => Race.step _ r false)
          ((congrArg (fun r => Race.step _ r true)
            ((congrArg (fun r => Race.step _ r false)
              ((congrArg (fun r => Race.step _ r false)
                ((congrArg (fun r => Race.step _ r false)
                  ((congrArg (fun r => Race.step _ r true)
                    ((congrArg (fun r => Race.step _ r true) e1).trans e2)).trans
                    e3)).trans e4)).trans e5)).trans e6)).trans e7)).trans e8)).trans
        e9)).trans e10
  rw [e]
  rfl

theorem succeeded_done (resp : Option StockMovementResponse) (err : Option Error) :
    (Phase.done resp err).succeeded = true ↔ err = none := by
  cases err <;> simp [Phase.succeeded]

/-- What the invariant says once both calls have finished. -/
theorem outRaceOK_finished (productID locationID1 locationID2 : Int) (r : Race)
    (resp1 resp2 : Option StockMovementResponse) (err1 err2 : Option Error)
    (h : OutRaceOK productID locationID1 locationID2 r)
    (hf : r.first = .done resp1 err1) (hs : r.second = .done resp2 err2) :
    (err1 = none ∨ err2 = none) ∧
      (∃ p, r.store.products.find? (fun x => decide (x.ID = productID)) = some p ∧
        p.Quantity = 40) ∧
      (∀ e, err1 = some e ∨ err2 = some e →
        e = .new "insufficient stock for outbound movement" ∨ e = .new "insufficient stock") := by
  obtain ⟨⟨p, hp, hc⟩, _, _, h1, h2⟩ := h
  rw [hf, hs] at hc
  rw [hf, hs] at h1
  rw [hf, hs] at h2
  simp only [OutPhaseOK, succeeded_done] at h1 h2
  have hone : err1 = none ∨ err2 = none := by
    rcases h1 with h1 | ⟨h1, _⟩
    · exact Or.inl h1
    · exact Or.inr h1
  refine ⟨hone, ⟨p, hp, ?_⟩, ?_⟩
  · rcases hc with ⟨_, ha, hb⟩ | ⟨hq, _⟩
    · rcases hone with h | h
      · rw [h] at ha; simp [Phase.succeeded] at ha
      · rw [h] at hb; simp [Phase.succeeded] at hb
    · exact hq
  · intro e he
    rcases he with he | he
    · rcases h1 with h1 | ⟨_, h1 | h1⟩
      · rw [h1] at he; simp at he
      · rw [h1] at he; exact Or.inl (Option.some.inj he).symm
      · rw [h1] at he; exact Or.inr (Option.some.inj he).symm
    · rcases h2 with h2 | ⟨_, h2 | h2⟩
      · rw [h2] at he; simp at he
      · rw [h2] at he; exact Or.inl (Option.some.inj he).symm
      · rw [h2] at he; exact Or.inr (Option.some.inj he).symm

/-- C24, as it stands, fails: product 1 holds 100 and two OUT requests of 60 run
against it; when both calls run their recorder step (each reads quantity 100 and
inserts its row), then both reload the product (each reads 100 again), then both update
it (each writes 40), both requests succeed, none fails with the insufficient-stock
error, and the product holds 40 with two OUT rows of 60 in the ledger. -/
theorem race_both_succeed_counterexample :
    (Race.run (outContest 1 1 1 5 6 7 8) (Race.init exStore) exTurns).first
      = .done (some { ID := 1, ProductID := 1, LocationID := 1, Type_ := "OUT",
                      Quantity := 60, CreatedAt := 5 }) none ∧
    (Race.run (outContest 1 1 1 5 6 7 8) (Race.init exStore) exTurns).second
      = .done (some { ID := 2, ProductID := 1, LocationID := 1, Type_ := "OUT",
                      Quantity := 60, CreatedAt := 7 }) none ∧
    (Race.run (outContest 1 1 1 5 6 7 8) (Race.init exStore) exTurns).store.products
      = [{ ID := 1, SKUName := "SKU-001", Quantity := 40 }] ∧
    (Race.run (outContest 1 1 1 5 6 7 8) (Race.init exStore) exTurns).store.movements
      = [{ ID := 1, ProductID := 1, LocationID := 1, Type_ := "OUT", Quantity := 60,
           CreatedAt := 6 },
         { ID := 2, ProductID := 1, LocationID := 1, Type_ := "OUT", Quantity := 60,
           CreatedAt := 8 }] := by
  rw [race_lost_update exStore 1 1 1 { ID := 1, SKUName := "SKU-001", Quantity := 100 }
    { ID := 1, Code := "LOC-A1", Name := "Warehouse A", Capacity := 500 }
    { ID := 1, Code := "LOC-A1", Name := "Warehouse A", Capacity := 500 } 5 6 7 8
    (by decide) (by decide) (by decide) rfl rfl rfl rfl]
  exact ⟨rfl, rfl, rfl, rfl⟩

/-- C24, amended. A product stored with quantity 100, and two OUT requests of 60
against it, each at an existing location, whose port calls never fail and are
interleaved in any way: at every point the stored quantity of the product is not
negative; once both calls have finished at least one of them has succeeded, a call that
failed did so with an insufficient-stock error (the one of the recorder, or the one of
`DecreaseStock` after its row was inserted), and the stored quantity is 40; and there
is an interleaving in which both calls succeed. -/
theorem race_two_outs (s : Store) (productID locationID1 locationID2 : Int) (p0 : Product)
    (loc1 loc2 : Location) (now1 dbNow1 now2 dbNow2 : Nat)
    (hpid : 0 < productID) (hlid1 : 0 < locationID1) (hlid2 : 0 < locationID2)
    (hprod : s.products.find? (fun x => decide (x.ID = productID)) = some p0)
    (hqty : p0.Quantity = 100)
    (hloc1 : s.locations.find? (fun l => decide (l.ID = locationID1)) = some loc1)
    (hloc2 : s.locations.find? (fun l => decide (l.ID = locationID2)) = some loc2) :
    (∀ turns : List Bool,
      (∃ p, (Race.run (outContest productID locationID1 locationID2 now1 dbNow1 now2 dbNow2)
            (Race.init s) turns).store.products.find?
          (fun x => decide (x.ID = productID)) = some p ∧ 0 ≤ p.Quantity) ∧
      (∀ resp1 err1 resp2 err2,
        (Race.run (outContest productID locationID1 locationID2 now1 dbNow1 now2 dbNow2)
          (Race.init s) turns).first = .done resp1 err1 →
        (Race.run (outContest productID locationID1 locationID2 now1 dbNow1 now2 dbNow2)
          (Race.init s) turns).second = .done resp2 err2 →
        (err1 = none ∨ err2 = none) ∧
        (∃ p, (Race.run (outContest productID locationID1 locationID2 now1 dbNow1 now2 dbNow2)
              (Race.init s) turns).store.products.find?
            (fun x => decide (x.ID = productID)) = some p ∧ p.Quantity = 40) ∧
        (∀ e, err1 = some e ∨ err2 = some e →
          e = .new "insufficient stock for outbound movement" ∨
            e = .new "insufficient stock"))) ∧
    (∃ turns resp1 resp2,
      (Race.run (outContest productID locationID1 locationID2 now1 dbNow1 now2 dbNow2)
        (Race.init s) turns).first = .done (some resp1) none ∧
      (Race.run (outContest productID locationID1 locationID2 now1 dbNow1 now2 dbNow2)
        (Race.init s) turns).second = .done (some resp2) none) := by
  constructor
  · intro turns
    have hinit : OutRaceOK productID locationID1 locationID2 (Race.init s) :=
      ⟨⟨p0, hprod, Or.inl ⟨hqty, rfl, rfl⟩⟩, ⟨loc1, hloc1⟩, ⟨loc2, hloc2⟩, trivial, trivial⟩
    have hrun := race_run_ok productID locationID1 locationID2 now1 dbNow1 now2 dbNow2
      hpid hlid1 hlid2 turns _ hinit
    constructor
    · obtain ⟨⟨p, hp, hc⟩, _, _, _, _⟩ := hrun
      refine ⟨p, hp, ?_⟩
      rcases hc with ⟨h, _, _⟩ | ⟨h, _⟩ <;> rw [h] <;> decide
    · intro resp1 err1 resp2 err2 hf hs
      exact outRaceOK_finished productID locationID1 locationID2 _ resp1 resp2 err1 err2
        hrun hf hs
  · have h := race_lost_update s productID locationID1 locationID2 p0 loc1 loc2
      now1 dbNow1 now2 dbNow2 hpid hlid1 hlid2 hprod hqty hloc1 hloc2
    exact ⟨exTurns, _, _, by rw [h], by rw [h]⟩

/-- Witness for the amended C24: product 1 with quantity 100 at location 1, the second
call starting only after the first has finished; the first succeeds, the second is
refused by the recorder, and the product holds 40. -/
theorem race_two_outs_witness :
    (none = (none : Option Error) ∨
        some (Error.new "insufficient stock for outbound movement") = none) ∧
      (∃ p, (Race.run (outContest 1 1 1 5 6 7 8) (Race.init exStore)
            [true, true, true, true, true, false, false, false]).store.products.find?
          (fun x => decide (x.ID = 1)) = some p ∧ p.Quantity = 40) ∧
      (∀ e, none = some e ∨ some (Error.new "insufficient stock for outbound movement") = some e →
        e = .new "insufficient stock for outbound movement" ∨ e = .new "insufficient stock") :=
  ((race_two_outs exStore 1 1 1 { ID := 1, SKUName := "SKU-001", Quantity := 100 }
      { ID := 1, Code := "LOC-A1", Name := "Warehouse A", Capacity := 500 }
      { ID := 1, Code := "LOC-A1", Name := "Warehouse A", Capacity := 500 } 5 6 7 8
      (by decide) (by decide) (by decide) rfl rfl rfl rfl).1
    [true, true, true, true, true, false, false, false]).2
    (some { ID := 1, ProductID := 1, LocationID := 1, Type_ := "OUT", Quantity := 60,
            CreatedAt := 5 })
    none none (some (.new "insufficient stock for outbound movement"))
    (by decide) (by decide)

end Warehouse
